import Mathlib

/-!
# Export controller: one reconcile pass

A shallow embedding of `controllers/export_controller.go`.  A pass talks to the
cluster store through four primitives (Get, Create, Status().Update, Delete);
the answers of the store are collected in an environment `Env`, and a pass is
the pure function `Reconcile : Env → Outcome` that returns how the pass ended,
the in-memory export request at that point, and the mutating calls it issued,
in order.
-/

namespace ExportController

/-! ## Data model -/

/-- Error value handed back by a store call: `text` is `err.Error()`, and
`notFound` is the verdict of `errors.IsNotFound(err)`. -/
structure Err where
  text : String
  notFound : Bool
deriving DecidableEq, Repr

/-- The managed-resource kinds read and created by `Reconcile`. -/
inductive Kind
  | job
  | serviceAccount
  | secret
  | route
  | clusterRole
  | clusterRoleBinding
  | networkPolicy
  | persistentVolumeClaim
  | service
  | deployment
deriving DecidableEq, Repr

/-- The part of `batchv1.Job` the controller reads: `Status.Succeeded`. -/
structure Job where
  Succeeded : Int
deriving DecidableEq, Repr

/-- The part of `routev1.Route` the controller reads: `Spec.Host`. -/
structure Route where
  Host : String
deriving DecidableEq, Repr

/-- The part of `appsv1.Deployment` the controller reads: `Status.ReadyReplicas`. -/
structure Deployment where
  ReadyReplicas : Int
deriving DecidableEq, Repr

/-- What a successful `Get` of a kind hands to the pass.  Only the job, the
route and the deployment are inspected afterwards. -/
@[reducible] def Kind.Obj : Kind → Type
  | .job => Job
  | .route => Route
  | .deployment => Deployment
  | .serviceAccount => Unit
  | .secret => Unit
  | .clusterRole => Unit
  | .clusterRoleBinding => Unit
  | .networkPolicy => Unit
  | .persistentVolumeClaim => Unit
  | .service => Unit

/-- A status condition (`status.Condition` of operator-lib). -/
structure Condition where
  Type_ : String
  Status : String
  Reason : String
  Message : String
  LastTransitionTime : Nat
deriving DecidableEq, Repr

/-- Type `metav1.Time`, represented by its rendering
`Rfc3339Copy().Format(time.RFC3339)`. -/
structure Time where
  rfc3339 : String
deriving DecidableEq, Repr

/-- Type `primerv1alpha1.ExportSpec`. -/
structure ExportSpec where
  Method : String
  Repo : String
  Branch : String
  Email : String
  User : String
  Secret : String
deriving DecidableEq, Repr

/-- Type `primerv1alpha1.ExportStatus`.  A nil and an empty condition slice are
identified. -/
structure ExportStatus where
  Completed : Bool
  Route : String
  Conditions : List Condition
deriving DecidableEq, Repr

/-- Type `primerv1alpha1.Export`. -/
structure Export where
  Name : String
  Namespace : String
  CreationTimestamp : Time
  Spec : ExportSpec
  Status : ExportStatus
deriving DecidableEq, Repr

/-- The zero value `&primerv1alpha1.Export{}`; the zero `metav1.Time` renders
as "0001-01-01T00:00:00Z". -/
def Export.zero : Export :=
  ⟨"", "", ⟨"0001-01-01T00:00:00Z"⟩, ⟨"", "", "", "", "", ""⟩, ⟨false, "", []⟩⟩

/-- The zero value `&appsv1.Deployment{}`. -/
def Deployment.zero : Deployment := ⟨0⟩

/-- Modelled from the spec: the constant `primerv1alpha1.ConditionReconciled`
of the api package, the condition type "Reconciled". -/
def ConditionReconciled : String := "Reconciled"

/-- Modelled from the spec: the constant `primerv1alpha1.ReconciledReasonError`
of the api package, the reason "Error". -/
def ReconciledReasonError : String := "Error"

/-- Modelled from the spec: the constant
`primerv1alpha1.ReconciledReasonComplete` of the api package, the reason
"Complete". -/
def ReconciledReasonComplete : String := "Complete"

/-- The constant `corev1.ConditionTrue`. -/
def ConditionTrue : String := "True"

/-- The constant `corev1.ConditionFalse`. -/
def ConditionFalse : String := "False"

/-! ## Status conditions -/

/-- Replace the first condition whose type is that of `newCond`; the
transition time of the replaced condition is kept when the status did not
change.  `none` when no condition has that type. -/
def replaceCondition (newCond : Condition) : List Condition → Option (List Condition)
  | [] => none
  | c :: cs =>
    if c.Type_ = newCond.Type_ then
      some ((if c.Status = newCond.Status then
              { newCond with LastTransitionTime := c.LastTransitionTime }
             else newCond) :: cs)
    else
      (replaceCondition newCond cs).map (fun r => c :: r)

/-- Modelled from the spec: `Conditions.SetCondition` of operator-lib, the
upsert of section 4.4: a write for an existing type replaces it, otherwise
the condition is appended and the collection is ordered by type. -/
def SetCondition (conditions : List Condition) (now : Nat) (newCond : Condition) :
    List Condition :=
  let stamped : Condition := { newCond with LastTransitionTime := now }
  match replaceCondition stamped conditions with
  | some cs => cs
  | none => List.insertionSort (fun a b => a.Type_ ≤ b.Type_) (conditions ++ [stamped])

/-- Translation of `updateErrCondition` (lines 400-408). -/
def updateErrCondition (now : Nat) (inst : Export) (err : Err) : Export :=
  { inst with
    Status := { inst.Status with
      Conditions := SetCondition inst.Status.Conditions now
        { Type_ := ConditionReconciled
          Status := ConditionFalse
          Reason := ReconciledReasonError
          Message := err.text
          LastTransitionTime := 0 } } }

/-! ## Helpers of the pass -/

/-- Translation of `isJobComplete` (lines 806-809). -/
def isJobComplete (job : Job) : Bool := job.Succeeded == 1

/-- Translation of `defineRoute` (lines 811-814). -/
def defineRoute (route : Route) : String := route.Host

/-- Translation of `isDeploymentReady` (lines 816-819). -/
def isDeploymentReady (deployment : Deployment) : Bool := deployment.ReadyReplicas == 1

/-! ## The store as seen by one pass -/

/-- The answers of the outside world to the calls of one pass.  Every kind is
read, created and deleted at most once in a pass, so one answer per kind is
enough.  `generate` is the answer of `password.Generate(43, 10, 0, false,
false)`, `now` the clock read by `SetCondition`. -/
structure Env where
  now : Nat
  getExport : Except Err Export
  get : (k : Kind) → Except Err k.Obj
  generate : Except Err String
  create : Kind → Option Err
  statusUpdate : Option Err
  delete : Kind → Option Err

/-- The mutating calls a pass can issue: `r.Create`, `r.Status().Update` with
the status it carries, and `r.Delete`, with `background = true` for
`client.PropagationPolicy(metav1.DeletePropagationBackground)`. -/
inductive Call
  | create (k : Kind)
  | statusUpdate (s : ExportStatus)
  | delete (k : Kind) (background : Bool)
deriving DecidableEq, Repr

/-- How a pass ends: `returned requeue err` is `return ctrl.Result, err`, with
`requeue` the field `Requeue`; `fatal cause` is `log.Fatal(cause)`, which
exits the process. -/
inductive Exit
  | returned (requeue : Bool) (err : Option Err)
  | fatal (cause : Err)
deriving DecidableEq, Repr

/-- Result of a pass: how it ended, the in-memory export request at that
point, and the mutating calls issued, in order. -/
structure Outcome where
  exit : Exit
  inst : Export
  calls : List Call
deriving DecidableEq, Repr

/-- The plain return `ctrl.Result{}, nil` with nothing issued. -/
def noop (inst : Export) : Outcome := ⟨.returned false none, inst, []⟩

/-- The tail of every failed read: `updateErrCondition(instance, err)` and
`return ctrl.Result{}, err`. -/
def readFailed (env : Env) (inst : Export) (err : Err) : Outcome :=
  ⟨.returned false (some err), updateErrCondition env.now inst err, []⟩

/-- The create block common to all kinds: `r.Create`; on failure
`updateErrCondition` and `return ctrl.Result{}, err`, on success
`return ctrl.Result{Requeue: true}, nil`. -/
def createStep (env : Env) (inst : Export) (k : Kind) : Outcome :=
  match env.create k with
  | some err => ⟨.returned false (some err), updateErrCondition env.now inst err, [.create k]⟩
  | none => ⟨.returned true none, inst, [.create k]⟩

/-- Translation of the random part of `secretGenerate` (lines 562-567): the
session token, or the error on which the function calls `log.Fatal`. -/
def secretGenerate (env : Env) (_m : Export) : Except Err String :=
  match env.generate with
  | .error err => .error err
  | .ok random => .ok random

/-- The job block (lines 105-138). -/
def jobStep (env : Env) (inst : Export) (cont : Job → Outcome) : Outcome :=
  match env.get .job with
  | .error err =>
    if inst.Status.Completed then noop inst
    else if err.notFound then
      if inst.Spec.Method = "git" then createStep env inst .job
      else if inst.Spec.Method = "download" then createStep env inst .job
      else readFailed env inst err
    else readFailed env inst err
  | .ok found => cont found

/-- The block repeated for the service account (141-162), the route
(189-210), the cluster role (213-233), the cluster role binding (236-256),
the network policy (261-281), the volume claim (285-306) and the service
(313-334). -/
def ensure (env : Env) (inst : Export) (k : Kind) (cont : k.Obj → Outcome) : Outcome :=
  match env.get k with
  | .error err =>
    if inst.Status.Completed then noop inst
    else if err.notFound then createStep env inst k
    else readFailed env inst err
  | .ok found => cont found

/-- The secret block (lines 165-186); generating the secret can end the
process. -/
def secretStep (env : Env) (inst : Export) (cont : Unit → Outcome) : Outcome :=
  match env.get .secret with
  | .error err =>
    if inst.Status.Completed then noop inst
    else if err.notFound then
      match secretGenerate env inst with
      | .error cause => ⟨.fatal cause, inst, []⟩
      | .ok _ => createStep env inst .secret
    else readFailed env inst err
  | .ok found => cont found

/-- The network policy block with its method gate (lines 260-282). -/
def netPolStep (env : Env) (inst : Export) (cont : Unit → Outcome) : Outcome :=
  if inst.Spec.Method = "download" then ensure env inst .networkPolicy cont
  else cont ()

/-- The deployment block (lines 339-360): gated by the method and the job,
and without the completed check of the other blocks. -/
def deploymentStep (env : Env) (inst : Export) (found : Job)
    (cont : Deployment → Outcome) : Outcome :=
  if inst.Spec.Method = "download" ∧ isJobComplete found = true then
    match env.get .deployment with
    | .error err =>
      if err.notFound then createStep env inst .deployment
      else readFailed env inst err
    | .ok foundDeployment => cont foundDeployment
  else cont Deployment.zero

/-- The value of `instance.Status.Completed` after lines 366-372. -/
def completedAfter (inst : Export) (found : Job) (foundDeployment : Deployment) : Bool :=
  if inst.Spec.Method ≠ "download" then isJobComplete found
  else if inst.Spec.Method = "download" ∧ isDeploymentReady foundDeployment = true then
    isJobComplete found
  else inst.Status.Completed

/-- The value of `instance.Status.Route` after line 375. -/
def routeAddress (inst : Export) (foundRoute : Route) : String :=
  "https://" ++ defineRoute foundRoute ++ "/" ++ inst.Namespace ++ "-" ++
    inst.CreationTimestamp.rfc3339 ++ ".zip"

/-- The export request after lines 362-375: the completion verdict and the
artifact address are stored on the in-memory status. -/
def setResult (inst : Export) (found : Job) (foundRoute : Route)
    (foundDeployment : Deployment) : Export :=
  { inst with
    Status := { inst.Status with
      Completed := completedAfter inst found foundDeployment
      Route := routeAddress inst foundRoute } }

/-- The end of the pass (lines 362-397). -/
def finish (env : Env) (inst : Export) (found : Job) (foundRoute : Route)
    (foundDeployment : Deployment) : Outcome :=
  let inst1 : Export := setResult inst found foundRoute foundDeployment
  if inst1.Status.Completed then
    match env.statusUpdate with
    | some err =>
      ⟨.returned false (some err), updateErrCondition env.now inst1 err,
        [.statusUpdate inst1.Status]⟩
    | none =>
      ⟨.returned false none,
        { inst1 with
          Status := { inst1.Status with
            Conditions := SetCondition inst1.Status.Conditions env.now
              { Type_ := ConditionReconciled
                Status := ConditionTrue
                Reason := ReconciledReasonComplete
                Message := "Reconcile complete"
                LastTransitionTime := 0 } } },
        [.statusUpdate inst1.Status, .delete .job true, .delete .clusterRole false,
          .delete .clusterRoleBinding false]⟩
  else noop inst1

/-- The resource walk and what follows it (lines 103-397), for the fetched
export request. -/
def walk (env : Env) (inst : Export) : Outcome :=
  jobStep env inst fun found =>
  ensure env inst .serviceAccount fun _ =>
  secretStep env inst fun _ =>
  ensure env inst .route fun foundRoute =>
  ensure env inst .clusterRole fun _ =>
  ensure env inst .clusterRoleBinding fun _ =>
  netPolStep env inst fun _ =>
  ensure env inst .persistentVolumeClaim fun _ =>
  ensure env inst .service fun _ =>
  deploymentStep env inst found fun foundDeployment =>
  finish env inst found foundRoute foundDeployment

/-- Translation of `ExportReconciler.Reconcile` (lines 81-398). -/
def Reconcile (env : Env) : Outcome :=
  match env.getExport with
  | .error err =>
    let inst := Export.zero
    if inst.Status.Completed then noop inst
    else if err.notFound then noop inst
    else readFailed env inst err
  | .ok inst => walk env inst

/-! ## Vocabulary of the claims -/

/-- The read of kind `k` succeeds. -/
def present (env : Env) (k : Kind) : Bool :=
  match env.get k with
  | .ok _ => true
  | .error _ => false

/-- The read of kind `k` reports not-found. -/
def absent (env : Env) (k : Kind) : Bool :=
  match env.get k with
  | .ok _ => false
  | .error err => err.notFound

/-- The fetched job reports success. -/
def jobSucceeded (env : Env) : Bool :=
  match env.get .job with
  | .ok found => isJobComplete found
  | .error _ => false

/-- The managed-resource catalog in the order of the walk: the network policy
belongs to it only for method download, the serving deployment only for
method download once the fetched job reports success. -/
def catalog (method : String) (jobDone : Bool) : List Kind :=
  [.job, .serviceAccount, .secret, .route, .clusterRole, .clusterRoleBinding]
    ++ (if method = "download" then [.networkPolicy] else [])
    ++ [.persistentVolumeClaim, .service]
    ++ (if method = "download" ∧ jobDone = true then [.deployment] else [])

/-- The first kind of the catalog whose read does not succeed. -/
def firstMissing (env : Env) (inst : Export) : Option Kind :=
  (catalog inst.Spec.Method (jobSucceeded env)).find? (fun k => !present env k)

/-- The kinds for which a create call was issued, in order. -/
def creates : List Call → List Kind
  | [] => []
  | .create k :: cs => k :: creates cs
  | _ :: cs => creates cs

/-- The conditions of type Reconciled. -/
def reconciledConditions (conditions : List Condition) : List Condition :=
  conditions.filter (fun c => c.Type_ = ConditionReconciled)

/-- Modelled from the spec: the export request status held by the store after
a pass.  The status is "mutated only by the engine's status writes": a status
write that succeeds replaces the stored status, no other call touches it. -/
def storedStatus (env : Env) (stored : ExportStatus) : List Call → ExportStatus
  | [] => stored
  | .statusUpdate s :: cs =>
    storedStatus env (if env.statusUpdate.isNone then s else stored) cs
  | _ :: cs => storedStatus env stored cs

/-! ## Sample requests and environments -/

/-- A git export request that is not completed and has no condition. -/
def gitExport : Export :=
  { Name := "demo", Namespace := "team", CreationTimestamp := ⟨"2021-06-01T10:00:00Z"⟩
    Spec := ⟨"git", "https://x/y", "main", "dev@x.y", "alice", "keys"⟩
    Status := ⟨false, "", []⟩ }

/-- A download export request that is not completed and has no condition. -/
def downloadExport : Export :=
  { gitExport with Spec := ⟨"download", "", "", "", "alice", ""⟩ }

/-- The not-found error of the store. -/
def errNotFound : Err := ⟨"not found", true⟩

/-- A store error other than not-found. -/
def errBoom : Err := ⟨"boom", false⟩

/-- Every kind is present; the job has `succeeded` successes, the deployment
`ready` ready replicas, the route host is "apps.example". -/
def getAll (succeeded ready : Int) : (k : Kind) → Except Err k.Obj
  | .job => .ok ⟨succeeded⟩
  | .route => .ok ⟨"apps.example"⟩
  | .deployment => .ok ⟨ready⟩
  | .serviceAccount => .ok ()
  | .secret => .ok ()
  | .clusterRole => .ok ()
  | .clusterRoleBinding => .ok ()
  | .networkPolicy => .ok ()
  | .persistentVolumeClaim => .ok ()
  | .service => .ok ()

/-- The read answers `get`, except that the read of `k` fails with `err`. -/
def getExcept (get : (k : Kind) → Except Err k.Obj) (k : Kind) (err : Err) :
    (j : Kind) → Except Err j.Obj :=
  fun j => if j = k then .error err else get j

/-- An environment in which every store call succeeds. -/
def envAll (inst : Export) (succeeded ready : Int) : Env :=
  { now := 7
    getExport := .ok inst
    get := getAll succeeded ready
    generate := .ok "0123456789abcdefghijklmnopqrstuvwxyzABCDEFG"
    create := fun _ => none
    statusUpdate := none
    delete := fun _ => none }

/-- Every kind but `k` is present, `k` is absent, and creates answer
`created`. -/
def envMissing (inst : Export) (succeeded ready : Int) (k : Kind) (created : Option Err) : Env :=
  { envAll inst succeeded ready with
    get := getExcept (getAll succeeded ready) k errNotFound
    create := fun _ => created }

/-! ## The walk, kind by kind -/

/-- The job handed to the rest of the pass: the fetched job, or the zero
value `&batchv1.Job{}` when the read failed. -/
def jobSeen (env : Env) : Job :=
  match env.get .job with
  | .ok found => found
  | .error _ => ⟨0⟩

/-- The route handed to the end of the pass. -/
def routeSeen (env : Env) : Route :=
  match env.get .route with
  | .ok foundRoute => foundRoute
  | .error _ => ⟨""⟩

/-- The deployment handed to the end of the pass: it is fetched only for
method download once the job reports success, and is the zero value
otherwise. -/
def deploymentSeen (env : Env) (inst : Export) : Deployment :=
  if inst.Spec.Method = "download" ∧ jobSucceeded env = true then
    match env.get .deployment with
    | .ok foundDeployment => foundDeployment
    | .error _ => Deployment.zero
  else Deployment.zero

/-- How the pass leaves the walk at kind `k` when the read of `k` fails with
`err`: a case-by-case copy of the error branches of the blocks of `walk`. -/
def exitAt (env : Env) (inst : Export) (k : Kind) (err : Err) : Outcome :=
  match k with
  | .deployment =>
    if err.notFound then createStep env inst .deployment
    else readFailed env inst err
  | .job =>
    if inst.Status.Completed then noop inst
    else if err.notFound then
      if inst.Spec.Method = "git" then createStep env inst .job
      else if inst.Spec.Method = "download" then createStep env inst .job
      else readFailed env inst err
    else readFailed env inst err
  | .secret =>
    if inst.Status.Completed then noop inst
    else if err.notFound then
      match secretGenerate env inst with
      | .error cause => ⟨.fatal cause, inst, []⟩
      | .ok _ => createStep env inst .secret
    else readFailed env inst err
  | k =>
    if inst.Status.Completed then noop inst
    else if err.notFound then createStep env inst k
    else readFailed env inst err

/-- The walk described through the catalog: the pass leaves at the first
kind whose read does not succeed, and reaches the end when there is none. -/
def walkSpec (env : Env) (inst : Export) : Outcome :=
  match firstMissing env inst with
  | some k =>
    match env.get k with
    | .error err => exitAt env inst k err
    | .ok _ => noop inst
  | none => finish env inst (jobSeen env) (routeSeen env) (deploymentSeen env inst)

/-- The stored status after a sequence of passes, each with its own
environment. -/
def storedAfterPasses (stored : ExportStatus) : List Env → ExportStatus
  | [] => stored
  | env :: envs => storedAfterPasses (storedStatus env stored (Reconcile env).calls) envs

/-- A git export request that carries the Reconciled condition of an earlier
failing pass. -/
def gitExportFailedBefore : Export :=
  { gitExport with
    Status := ⟨false, "", [⟨"Reconciled", "False", "Error", "earlier failure", 3⟩]⟩ }

/-- A git export request whose status already records completion. -/
def gitExportCompleted : Export :=
  { gitExport with
    Status := ⟨true, "https://apps.example/team-2021-06-01T10:00:00Z.zip", []⟩ }

/-- A download export request whose status already records completion. -/
def downloadExportCompleted : Export :=
  { downloadExport with
    Status := ⟨true, "https://apps.example/team-2021-06-01T10:00:00Z.zip", []⟩ }

/-- Every kind but `k` is present, the read of `k` fails with `err`, and every
other store call succeeds. -/
def envReadError (inst : Export) (succeeded ready : Int) (k : Kind) (err : Err) : Env :=
  { envAll inst succeeded ready with
    get := getExcept (getAll succeeded ready) k err }

/-! ## Generated objects -/

/-- The image names held by `ExportReconciler` (lines 47-53). -/
structure ExportReconciler where
  DownloaderImage : String
  ExportImage : String
  OauthImage : String
deriving DecidableEq, Repr

/-- An owner reference, as written by `ctrl.SetControllerReference`. -/
structure OwnerReference where
  Kind : String
  Name : String
  Controller : Bool
deriving DecidableEq, Repr

/-- The part of `metav1.ObjectMeta` the generators fill in.  A Go map literal
is the list of its entries in source order. -/
structure ObjectMeta where
  Name : String
  Namespace : String
  Annotations : List (String × String) := []
  Labels : List (String × String) := []
  OwnerReferences : List OwnerReference := []
deriving DecidableEq, Repr

/-- The effect of `ctrl.SetControllerReference(m, obj, r.Scheme)` on the
metadata of the generated object: the export request becomes its controller. -/
def SetControllerReference (m : Export) (meta : ObjectMeta) : ObjectMeta :=
  { meta with OwnerReferences := [⟨"Export", m.Name, true⟩] }

/-- The value of `intstr.IntOrString`. -/
inductive IntOrString
  | int (n : Int)
  | str (s : String)
deriving DecidableEq, Repr

/-- Type `routev1.RouteTargetReference`. -/
structure RouteTargetReference where
  Kind : String
  Name : String
deriving DecidableEq, Repr

/-- Type `routev1.TLSConfig`. -/
structure TLSConfig where
  Termination : String
  InsecureEdgeTerminationPolicy : String
deriving DecidableEq, Repr

/-- Type `routev1.RouteSpec`. -/
structure RouteSpec where
  To : RouteTargetReference
  AlternateBackends : List RouteTargetReference
  TargetPort : IntOrString
  TLS : TLSConfig
  WildcardPolicy : String
deriving DecidableEq, Repr

/-- The route built by `routeGenerate`. -/
structure RouteObject where
  ObjectMeta : ObjectMeta
  Spec : RouteSpec
deriving DecidableEq, Repr

/-- Translation of `routeGenerate` (lines 533-560). -/
def routeGenerate (m : Export) : RouteObject :=
  { ObjectMeta := SetControllerReference m
      { Name := "primer-export-" ++ m.Name, Namespace := m.Namespace }
    Spec :=
      { To := { Kind := "Service", Name := "primer-export-primer" }
        AlternateBackends := []
        TargetPort := .str "oauth-proxy"
        TLS := { Termination := "reencrypt", InsecureEdgeTerminationPolicy := "Redirect" }
        WildcardPolicy := "" } }

/-- Type `corev1.ServicePort`. -/
structure ServicePort where
  Port : Int
  Name : String
deriving DecidableEq, Repr

/-- Type `corev1.ServiceSpec`. -/
structure ServiceSpec where
  Ports : List ServicePort
  Selector : List (String × String)
deriving DecidableEq, Repr

/-- The service built by `svcGenerate`. -/
structure ServiceObject where
  ObjectMeta : ObjectMeta
  Spec : ServiceSpec
deriving DecidableEq, Repr

/-- Translation of `svcGenerate` (lines 646-677). -/
def svcGenerate (m : Export) : ServiceObject :=
  { ObjectMeta := SetControllerReference m
      { Name := "primer-export-" ++ m.Name
        Namespace := m.Namespace
        Annotations :=
          [("service.alpha.openshift.io/serving-cert-secret-name",
            "primer-export-" ++ m.Name ++ "-tls")] }
    Spec :=
      { Ports := [{ Port := 8080, Name := "primer" }, { Port := 8888, Name := "oauth-proxy" }]
        Selector :=
          [("app.kubernetes.io/name", "primer-export-" ++ m.Name),
           ("app.kubernetes.io/component", "primer-export-" ++ m.Name),
           ("app.kubernetes.io/part-of", "primer-export")] } }

/-- Type `rbacv1.PolicyRule`. -/
structure PolicyRule where
  APIGroups : List String
  Resources : List String
  Verbs : List String
  ResourceNames : List String
deriving DecidableEq, Repr

/-- The cluster role built by `clusterRoleGenerate`. -/
structure ClusterRoleObject where
  ObjectMeta : ObjectMeta
  Rules : List PolicyRule
deriving DecidableEq, Repr

/-- Translation of `clusterRoleGenerate` (lines 604-623). -/
def clusterRoleGenerate (m : Export) : ClusterRoleObject :=
  { ObjectMeta := SetControllerReference m
      { Name := "primer-export-" ++ m.Namespace ++ "-" ++ m.Name, Namespace := m.Namespace }
    Rules :=
      [{ APIGroups := [""], Resources := ["users"], Verbs := ["impersonate"],
         ResourceNames := [m.Spec.User] }] }

/-- Type `rbacv1.RoleRef`. -/
structure RoleRef where
  APIGroup : String
  Name : String
  Kind : String
deriving DecidableEq, Repr

/-- Type `rbacv1.Subject`. -/
structure Subject where
  Kind : String
  Name : String
  Namespace : String
deriving DecidableEq, Repr

/-- The cluster role binding built by `clusterRoleBindingGenerate`. -/
structure ClusterRoleBindingObject where
  ObjectMeta : ObjectMeta
  RoleRef : RoleRef
  Subjects : List Subject
deriving DecidableEq, Repr

/-- Translation of `clusterRoleBindingGenerate` (lines 625-644). -/
def clusterRoleBindingGenerate (m : Export) : ClusterRoleBindingObject :=
  { ObjectMeta := SetControllerReference m
      { Name := "primer-export-" ++ m.Namespace ++ "-" ++ m.Name, Namespace := m.Namespace }
    RoleRef :=
      { APIGroup := "rbac.authorization.k8s.io"
        Name := "primer-export-" ++ m.Namespace ++ "-" ++ m.Name
        Kind := "ClusterRole" }
    Subjects :=
      [{ Kind := "ServiceAccount", Name := "primer-export-" ++ m.Name,
         Namespace := m.Namespace }] }

/-- Type `metav1.LabelSelector`, with its `MatchLabels`. -/
structure LabelSelector where
  MatchLabels : List (String × String)
deriving DecidableEq, Repr

/-- Type `networkingv1.NetworkPolicyPeer`. -/
structure NetworkPolicyPeer where
  NamespaceSelector : Option LabelSelector
deriving DecidableEq, Repr

/-- Type `networkingv1.NetworkPolicyIngressRule`. -/
structure NetworkPolicyIngressRule where
  From : List NetworkPolicyPeer
deriving DecidableEq, Repr

/-- Type `networkingv1.NetworkPolicySpec`. -/
structure NetworkPolicySpec where
  PodSelector : LabelSelector
  Ingress : List NetworkPolicyIngressRule
  PolicyTypes : List String
deriving DecidableEq, Repr

/-- The network policy built by `netPolGenerate`. -/
structure NetworkPolicyObject where
  ObjectMeta : ObjectMeta
  Spec : NetworkPolicySpec
deriving DecidableEq, Repr

/-- Translation of `netPolGenerate` (lines 780-804). -/
def netPolGenerate (m : Export) : NetworkPolicyObject :=
  { ObjectMeta := SetControllerReference m
      { Name := "primer-export-" ++ m.Name, Namespace := m.Namespace }
    Spec :=
      { PodSelector :=
          { MatchLabels :=
              [("app.kubernetes.io/name", "primer-export-" ++ m.Name),
               ("app.kubernetes.io/component", "primer-export-" ++ m.Name),
               ("app.kubernetes.io/part-of", "primer-export-" ++ m.Name)] }
        Ingress :=
          [{ From :=
              [{ NamespaceSelector :=
                  some { MatchLabels := [("network.openshift.io/policy-group", "ingress")] } }] }]
        PolicyTypes := ["Ingress"] } }

set_option linter.dupNamespace false in
/-- Type `corev1.ContainerPort`. -/
structure ContainerPort where
  ContainerPort : Int
  Name : String
deriving DecidableEq, Repr

/-- Type `corev1.VolumeMount`. -/
structure VolumeMount where
  Name : String
  MountPath : String
deriving DecidableEq, Repr

/-- Type `corev1.Container`. -/
structure Container where
  Image : String
  Name : String
  Args : List String
  Ports : List ContainerPort
  VolumeMounts : List VolumeMount
deriving DecidableEq, Repr

/-- Type `corev1.VolumeSource`, for the two sources the deployment uses. -/
inductive VolumeSource
  | persistentVolumeClaim (ClaimName : String)
  | secret (SecretName : String) (DefaultMode : Int)
deriving DecidableEq, Repr

/-- Type `corev1.Volume`. -/
structure Volume where
  Name : String
  VolumeSource : VolumeSource
deriving DecidableEq, Repr

/-- Type `corev1.PodSpec`. -/
structure PodSpec where
  Containers : List Container
  ServiceAccountName : String
  Volumes : List Volume
deriving DecidableEq, Repr

/-- Type `corev1.PodTemplateSpec`. -/
structure PodTemplateSpec where
  Labels : List (String × String)
  Spec : PodSpec
deriving DecidableEq, Repr

/-- Type `appsv1.DeploymentSpec`. -/
structure DeploymentSpec where
  Replicas : Int
  Selector : LabelSelector
  Template : PodTemplateSpec
deriving DecidableEq, Repr

/-- The deployment built by `deploymentGenerate`. -/
structure DeploymentObject where
  ObjectMeta : ObjectMeta
  Spec : DeploymentSpec
deriving DecidableEq, Repr

/-- Translation of `deploymentGenerate` (lines 679-778). -/
def deploymentGenerate (r : ExportReconciler) (m : Export) : DeploymentObject :=
  let replicas : Int := 1
  let secretMode : Int := 420
  let primerName := "primer-export-" ++ m.Name
  let openshiftSar :=
    "\x7b-openshift-sar=\x7b\"resource\": \"namespaces\",\"resourceName\":" ++ primerName
      ++ ",\"namespace\": " ++ m.Namespace ++ ",\"verb\":\"get\"\x7d\""
  { ObjectMeta := SetControllerReference m
      { Name := "primer-export-" ++ m.Name, Namespace := m.Namespace }
    Spec :=
      { Replicas := replicas
        Selector :=
          { MatchLabels :=
              [("app.kubernetes.io/name", "primer-export-" ++ m.Name),
               ("app.kubernetes.io/component", "primer-export-" ++ m.Name),
               ("app.kubernetes.io/part-of", "primer-export")] }
        Template :=
          { Labels :=
              [("app.kubernetes.io/name", "primer-export-" ++ m.Name),
               ("app.kubernetes.io/component", "primer-export-" ++ m.Name),
               ("app.kubernetes.io/part-of", "primer-export")]
            Spec :=
              { Containers :=
                  [{ Image := r.DownloaderImage
                     Name := "primer-export-" ++ m.Name
                     Args := []
                     Ports := [{ ContainerPort := 8080, Name := "downloader" }]
                     VolumeMounts := [{ Name := "output", MountPath := "/var/www/html" }] },
                   { Image := r.OauthImage
                     Name := "oauth-proxy"
                     Args :=
                       ["-provider=openshift",
                        "-https-address=:8888",
                        "-http-address=",
                        "-email-domain=*",
                        "-upstream=http://localhost:8080",
                        "-tls-cert=/etc/tls/private/tls.crt",
                        "-tls-key=/etc/tls/private/tls.key",
                        "-client-secret-file=/var/run/secrets/kubernetes.io/serviceaccount/token",
                        "-cookie-secret-file=/etc/proxy/secrets/session_secret",
                        "-openshift-service-account=primer-export-" ++ m.Name,
                        "-openshift-ca=/var/run/secrets/kubernetes.io/serviceaccount/ca.crt",
                        "-skip-auth-regex=^/metrics",
                        openshiftSar]
                     Ports := [{ ContainerPort := 8888, Name := "oath-proxy" }]
                     VolumeMounts :=
                       [{ Name := "primer-oauth-tls", MountPath := "/etc/tls/private" },
                        { Name := "secret-primer-proxy", MountPath := "/etc/proxy/secrets" }] }]
                ServiceAccountName := "primer-export-" ++ m.Name
                Volumes :=
                  [{ Name := "output"
                     VolumeSource := .persistentVolumeClaim ("primer-export-" ++ m.Name) },
                   { Name := "primer-oauth-tls"
                     VolumeSource := .secret ("primer-export-" ++ m.Name ++ "-tls") secretMode },
                   { Name := "secret-primer-proxy"
                     VolumeSource := .secret ("primer-export-" ++ m.Name) secretMode }] } } } }

/-- A label selector selects a set of labels when every label it requires is
present with the same value. -/
def selectorMatches (selector : LabelSelector) (labels : List (String × String)) : Bool :=
  selector.MatchLabels.all (fun kv => labels.lookup kv.1 == some kv.2)

/-- The images of the sample reconciler, the defaults of `SetupWithManager`. -/
def sampleReconciler : ExportReconciler :=
  { DownloaderImage := "quay.io/konveyor/gitops-primer:latest"
    ExportImage := "quay.io/konveyor/gitops-primer-export:latest"
    OauthImage := "quay.io/openshift/origin-oauth-proxy:4.7" }

/-! ## The cluster store -/

/-- Modelled from the spec: the state of the cluster store as far as one
export request is concerned (section 1, the external state-access
primitives): the stored export request and, for each kind, the stored
managed resource if there is one. -/
structure Cluster where
  request : Export
  objects : (k : Kind) → Option k.Obj

/-- The object the store holds right after a create: nothing has acted on it
yet, so the job has no success, the route no host and the deployment no ready
replica. -/
def fresh : (k : Kind) → k.Obj
  | .job => (⟨0⟩ : Job)
  | .route => (⟨""⟩ : Route)
  | .deployment => (⟨0⟩ : Deployment)
  | .serviceAccount => ()
  | .secret => ()
  | .clusterRole => ()
  | .clusterRoleBinding => ()
  | .networkPolicy => ()
  | .persistentVolumeClaim => ()
  | .service => ()

/-- Modelled from the spec: the answers of a store in state `c` in which
every call succeeds: a read finds the stored object or reports not-found,
and creates, status writes and deletes go through. -/
def Cluster.env (c : Cluster) (now : Nat) (token : String) : Env :=
  { now := now
    getExport := .ok c.request
    get := fun k =>
      match c.objects k with
      | some obj => .ok obj
      | none => .error ⟨"not found", true⟩
    generate := .ok token
    create := fun _ => none
    statusUpdate := none
    delete := fun _ => none }

/-- Modelled from the spec: the state of the store after the calls of a pass,
all of which succeed: a create stores a fresh object, a status write replaces
the stored status, a delete removes the object. -/
def Cluster.apply (c : Cluster) : List Call → Cluster
  | [] => c
  | .create k :: cs =>
    Cluster.apply { c with objects := Function.update c.objects k (some (fresh k)) } cs
  | .statusUpdate st :: cs =>
    Cluster.apply { c with request := { c.request with Status := st } } cs
  | .delete k _ :: cs =>
    Cluster.apply { c with objects := Function.update c.objects k none } cs

/-- The state after one pass on state `c` in which every store call
succeeds. -/
def Cluster.pass (c : Cluster) (now : Nat) (token : String) : Cluster :=
  c.apply (Reconcile (c.env now token)).calls

/-- A store holding the git sample request and every kind, with a job that
reports one success. -/
def clusterAll : Cluster :=
  { request := gitExport
    objects := fun k => (getAll 1 0 k).toOption }

/-- The character lists of namespaces and names: no hyphen occurs. -/
def noHyphen (s : String) : Prop := '-' ∉ s.toList

/-- The git sample request moved to namespace `ns` under name `name`. -/
def exportNamed (ns name : String) : Export :=
  { gitExport with Name := name, Namespace := ns }

/-- The error of a failed `password.Generate`. -/
def errRandom : Err := ⟨"unexpected EOF", false⟩

/-- The secret of the request is the only absent kind, and generating the
session token fails with `cause`. -/
def envTokenFailure (inst : Export) (cause : Err) : Env :=
  { envMissing inst 0 0 .secret none with generate := .error cause }

/-! ## The walk leaves at the first missing kind -/

theorem walk_eq_walkSpec (env : Env) (inst : Export) : walk env inst = walkSpec env inst := by
  rcases hj : env.get .job with e | found
  · simp [walk, walkSpec, firstMissing, catalog, present, jobStep, exitAt, hj]
  rcases hsa : env.get .serviceAccount with e | u
  · simp [walk, walkSpec, firstMissing, catalog, present, jobStep, ensure, exitAt, hj, hsa]
  rcases hse : env.get .secret with e | u
  · simp [walk, walkSpec, firstMissing, catalog, present, jobStep, ensure, secretStep, exitAt,
      hj, hsa, hse]
  rcases hr : env.get .route with e | foundRoute
  · simp [walk, walkSpec, firstMissing, catalog, present, jobStep, ensure, secretStep, exitAt,
      hj, hsa, hse, hr]
  rcases hcr : env.get .clusterRole with e | u
  · simp [walk, walkSpec, firstMissing, catalog, present, jobStep, ensure, secretStep, exitAt,
      hj, hsa, hse, hr, hcr]
  rcases hcrb : env.get .clusterRoleBinding with e | u
  · simp [walk, walkSpec, firstMissing, catalog, present, jobStep, ensure, secretStep, exitAt,
      hj, hsa, hse, hr, hcr, hcrb]
  by_cases hm : inst.Spec.Method = "download"
  · rcases hn : env.get .networkPolicy with e | u
    · simp [walk, walkSpec, firstMissing, catalog, present, jobStep, ensure, secretStep,
        netPolStep, exitAt, hj, hsa, hse, hr, hcr, hcrb, hm, hn]
    rcases hp : env.get .persistentVolumeClaim with e | u
    · simp [walk, walkSpec, firstMissing, catalog, present, jobStep, ensure, secretStep,
        netPolStep, exitAt, hj, hsa, hse, hr, hcr, hcrb, hm, hn, hp]
    rcases hs : env.get .service with e | u
    · simp [walk, walkSpec, firstMissing, catalog, present, jobStep, ensure, secretStep,
        netPolStep, exitAt, hj, hsa, hse, hr, hcr, hcrb, hm, hn, hp, hs]
    by_cases hd : isJobComplete found = true
    · rcases hdep : env.get .deployment with e | foundDeployment
      · simp [walk, walkSpec, firstMissing, catalog, present, jobSucceeded, jobStep, ensure,
          secretStep, netPolStep, deploymentStep, exitAt, hj, hsa, hse, hr, hcr, hcrb, hm, hn,
          hp, hs, hd, hdep]
      · simp [walk, walkSpec, firstMissing, catalog, present, jobSucceeded, jobStep, ensure,
          secretStep, netPolStep, deploymentStep, jobSeen, routeSeen, deploymentSeen, hj, hsa,
          hse, hr, hcr, hcrb, hm, hn, hp, hs, hd, hdep]
    · simp [walk, walkSpec, firstMissing, catalog, present, jobSucceeded, jobStep, ensure,
        secretStep, netPolStep, deploymentStep, jobSeen, routeSeen, deploymentSeen, hj, hsa,
        hse, hr, hcr, hcrb, hm, hn, hp, hs, hd]
  · rcases hp : env.get .persistentVolumeClaim with e | u
    · simp [walk, walkSpec, firstMissing, catalog, present, jobStep, ensure, secretStep,
        netPolStep, exitAt, hj, hsa, hse, hr, hcr, hcrb, hm, hp]
    rcases hs : env.get .service with e | u
    · simp [walk, walkSpec, firstMissing, catalog, present, jobStep, ensure, secretStep,
        netPolStep, exitAt, hj, hsa, hse, hr, hcr, hcrb, hm, hp, hs]
    · simp [walk, walkSpec, firstMissing, catalog, present, jobSucceeded, jobStep, ensure,
        secretStep, netPolStep, deploymentStep, jobSeen, routeSeen, deploymentSeen, hj, hsa,
        hse, hr, hcr, hcrb, hm, hp, hs]

theorem Reconcile_of_fetched {env : Env} {inst : Export} (hget : env.getExport = .ok inst) :
    Reconcile env = walkSpec env inst := by
  simp [Reconcile, hget, walk_eq_walkSpec]

theorem firstMissing_not_present {env : Env} {inst : Export} {k : Kind}
    (h : firstMissing env inst = some k) : present env k = false := by
  have := List.find?_some h
  simpa using this

theorem firstMissing_mem {env : Env} {inst : Export} {k : Kind}
    (h : firstMissing env inst = some k) :
    k ∈ catalog inst.Spec.Method (jobSucceeded env) :=
  List.mem_of_find?_eq_some h

theorem not_present_error {env : Env} {k : Kind} (h : present env k = false) :
    ∃ err, env.get k = .error err := by
  unfold present at h
  split at h
  · simp at h
  · exact ⟨_, by assumption⟩

theorem walkSpec_exit {env : Env} {inst : Export} {k : Kind} {err : Err}
    (h : firstMissing env inst = some k) (hk : env.get k = .error err) :
    walkSpec env inst = exitAt env inst k err := by
  simp [walkSpec, h, hk]

theorem exitAt_absent {env : Env} {inst : Export} {token : String} (k : Kind) {err : Err}
    (hc : inst.Status.Completed = false)
    (hm : inst.Spec.Method = "git" ∨ inst.Spec.Method = "download")
    (hgen : env.generate = .ok token) (hnf : err.notFound = true) :
    exitAt env inst k err = createStep env inst k := by
  rcases hm with hm | hm <;> cases k <;> simp [exitAt, secretGenerate, hc, hm, hgen, hnf]

theorem creates_createStep (env : Env) (inst : Export) (k : Kind) :
    creates (createStep env inst k).calls = [k] := by
  unfold createStep
  split <;> simp [creates]

theorem creates_finish (env : Env) (inst : Export) (found : Job) (foundRoute : Route)
    (foundDeployment : Deployment) :
    creates (finish env inst found foundRoute foundDeployment).calls = [] := by
  by_cases h : (setResult inst found foundRoute foundDeployment).Status.Completed = true
  · cases hs : env.statusUpdate <;> simp [finish, creates, h, hs]
  · simp [finish, creates, noop, h]

theorem mem_creates (k : Kind) (calls : List Call) :
    k ∈ creates calls ↔ Call.create k ∈ calls := by
  induction calls with
  | nil => simp [creates]
  | cons c cs ih => cases c <;> simp [creates, ih]

/-- Claim C1: for a fetched, not yet completed request with method git or
download, when every managed-resource read succeeds or reports not-found (and
the session token can be generated), the creates issued by the pass are
exactly the first absent kind of the catalog, none when no kind is absent;
for method git neither a network policy nor a deployment is created. -/
theorem C1_create_is_first_absent (env : Env) (inst : Export) (token : String)
    (hget : env.getExport = .ok inst)
    (hc : inst.Status.Completed = false)
    (hm : inst.Spec.Method = "git" ∨ inst.Spec.Method = "download")
    (hread : ∀ k, present env k = true ∨ absent env k = true)
    (hgen : env.generate = .ok token) :
    creates (Reconcile env).calls
        = ((catalog inst.Spec.Method (jobSucceeded env)).find? (fun k => absent env k)).toList
      ∧ (inst.Spec.Method = "git" →
          Call.create .networkPolicy ∉ (Reconcile env).calls ∧
          Call.create .deployment ∉ (Reconcile env).calls) := by
  have hpa : (fun k => absent env k) = (fun k => !present env k) := by
    funext k
    rcases hread k with h | h
    · have : absent env k = false := by
        unfold present at h
        unfold absent
        split at h <;> simp_all
      simp [h, this]
    · have : present env k = false := by
        unfold absent at h
        unfold present
        split at h <;> simp_all
      simp [h, this]
  have hfm : (catalog inst.Spec.Method (jobSucceeded env)).find? (fun k => absent env k)
      = firstMissing env inst := by
    rw [hpa]; rfl
  have hmain : creates (Reconcile env).calls = (firstMissing env inst).toList := by
    rw [Reconcile_of_fetched hget]
    rcases hf : firstMissing env inst with _ | k
    · simp [walkSpec, hf, creates_finish]
    · have hnp := firstMissing_not_present hf
      obtain ⟨err, hk⟩ := not_present_error hnp
      have hnf : err.notFound = true := by
        rcases hread k with h | h
        · simp [hnp] at h
        · simpa [absent, hk] using h
      rw [walkSpec_exit hf hk, exitAt_absent k hc hm hgen hnf, creates_createStep]
      rfl
  refine ⟨by rw [hmain, hfm], ?_⟩
  intro hgit
  have hnot : ∀ k, k ∈ creates (Reconcile env).calls →
      k ≠ .networkPolicy ∧ k ≠ .deployment := by
    intro k hk
    rw [hmain] at hk
    have hf : firstMissing env inst = some k := by simpa using hk
    have hmem := firstMissing_mem hf
    simp [catalog, hgit] at hmem
    rcases hmem with h | h | h | h | h | h | h | h <;> simp [h]
  constructor
  · intro h
    exact (hnot _ ((mem_creates _ _).2 h)).1 rfl
  · intro h
    exact (hnot _ ((mem_creates _ _).2 h)).2 rfl

/-- Witness of C1: a git request whose route is the only absent kind; the
pass creates the route and nothing else. -/
theorem C1_create_is_first_absent_witness :
    (envMissing gitExport 0 0 .route none).getExport = .ok gitExport
      ∧ gitExport.Status.Completed = false
      ∧ (gitExport.Spec.Method = "git" ∨ gitExport.Spec.Method = "download")
      ∧ (∀ k, present (envMissing gitExport 0 0 .route none) k = true
            ∨ absent (envMissing gitExport 0 0 .route none) k = true)
      ∧ creates (Reconcile (envMissing gitExport 0 0 .route none)).calls = [.route]
      ∧ (creates (Reconcile (envMissing gitExport 0 0 .route none)).calls
          = ((catalog gitExport.Spec.Method
                (jobSucceeded (envMissing gitExport 0 0 .route none))).find?
              (fun k => absent (envMissing gitExport 0 0 .route none) k)).toList
        ∧ (gitExport.Spec.Method = "git" →
          Call.create .networkPolicy ∉ (Reconcile (envMissing gitExport 0 0 .route none)).calls ∧
          Call.create .deployment ∉ (Reconcile (envMissing gitExport 0 0 .route none)).calls)) :=
  ⟨rfl, rfl, Or.inl rfl, fun k => by cases k <;> decide, by decide,
    C1_create_is_first_absent (envMissing gitExport 0 0 .route none) gitExport
      "0123456789abcdefghijklmnopqrstuvwxyzABCDEFG" rfl rfl (Or.inl rfl)
      (fun k => by cases k <;> decide) rfl⟩

/-! ## Every pass ends in one of five ways -/

/-- A property of outcomes holds of every pass as soon as it holds of the
five ways a pass can end: the plain return, the failed read, the create
block, the exit of the process in `secretGenerate`, and the end of the pass. -/
theorem Reconcile_cases (env : Env) (P : Outcome → Prop)
    (hnoop : ∀ inst, P (noop inst))
    (hread : ∀ inst err, P (readFailed env inst err))
    (hcreate : ∀ inst k, P (createStep env inst k))
    (hfatal : ∀ inst cause, P ⟨.fatal cause, inst, []⟩)
    (hfinish : ∀ inst found foundRoute foundDeployment,
      P (finish env inst found foundRoute foundDeployment)) :
    P (Reconcile env) := by
  have hexit : ∀ inst k err, P (exitAt env inst k err) := by
    intro inst k err
    cases k <;> simp only [exitAt] <;> repeat' split
    all_goals first
      | exact hnoop _
      | exact hread _ _
      | exact hcreate _ _
      | exact hfatal _ _
  rcases hg : env.getExport with err | inst
  · simp only [Reconcile, hg]
    repeat' split
    all_goals first
      | exact hnoop _
      | exact hread _ _
  · rw [Reconcile_of_fetched hg]
    unfold walkSpec
    repeat' split
    all_goals first
      | exact hnoop _
      | exact hexit _ _ _
      | exact hfinish _ _ _ _

/-- Claim C2: in every pass at most one create call is issued, and when that
create succeeds the pass returns requeue = true with no error and has issued
nothing but that create: no delete and no status write. -/
theorem C2_one_create_per_pass (env : Env) :
    (creates (Reconcile env).calls).length ≤ 1
      ∧ ∀ k, Call.create k ∈ (Reconcile env).calls → env.create k = none →
          (Reconcile env).exit = .returned true none
            ∧ (Reconcile env).calls = [.create k] := by
  apply Reconcile_cases env
    (fun o => (creates o.calls).length ≤ 1
      ∧ ∀ k, Call.create k ∈ o.calls → env.create k = none →
          o.exit = .returned true none ∧ o.calls = [.create k])
  · intro inst
    simp [noop, creates]
  · intro inst err
    simp [readFailed, creates]
  · intro inst k
    rcases hk : env.create k with _ | e
    · simp [createStep, hk, creates]
    · simp only [createStep, hk]
      refine ⟨by simp [creates], ?_⟩
      intro j hj hnone
      simp at hj
      subst hj
      simp [hk] at hnone
  · intro inst cause
    simp [creates]
  · intro inst found foundRoute foundDeployment
    by_cases h : (setResult inst found foundRoute foundDeployment).Status.Completed = true
    · cases hs : env.statusUpdate <;> simp [finish, creates, h, hs]
    · simp [finish, creates, noop, h]

/-- Witness of C2: the service account of a git request is absent and its
create succeeds. -/
theorem C2_one_create_per_pass_witness :
    Call.create .serviceAccount ∈ (Reconcile (envMissing gitExport 0 0 .serviceAccount none)).calls
      ∧ (envMissing gitExport 0 0 .serviceAccount none).create .serviceAccount = none
      ∧ (Reconcile (envMissing gitExport 0 0 .serviceAccount none)).exit = .returned true none
      ∧ (Reconcile (envMissing gitExport 0 0 .serviceAccount none)).calls
          = [.create .serviceAccount] :=
  ⟨by decide, rfl,
    (C2_one_create_per_pass (envMissing gitExport 0 0 .serviceAccount none)).2
      .serviceAccount (by decide) rfl⟩

/-! ## The end of the pass -/

theorem walkSpec_finish {env : Env} {inst : Export} (h : firstMissing env inst = none) :
    walkSpec env inst
      = finish env inst (jobSeen env) (routeSeen env) (deploymentSeen env inst) := by
  simp [walkSpec, h]

theorem finish_completed (env : Env) (inst : Export) (found : Job) (foundRoute : Route)
    (foundDeployment : Deployment) :
    (finish env inst found foundRoute foundDeployment).inst.Status.Completed
      = completedAfter inst found foundDeployment := by
  by_cases h : completedAfter inst found foundDeployment = true
  · cases hs : env.statusUpdate <;>
      simp [finish, setResult, h, hs, updateErrCondition]
  · simp [finish, setResult, noop, h]

theorem present_of_firstMissing_none {env : Env} {inst : Export}
    (h : firstMissing env inst = none) {k : Kind}
    (hk : k ∈ catalog inst.Spec.Method (jobSucceeded env)) : present env k = true := by
  have := List.find?_eq_none.1 h k hk
  simpa using this

theorem present_ok {env : Env} {k : Kind} (h : present env k = true) :
    ∃ x, env.get k = .ok x := by
  unfold present at h
  split at h
  · exact ⟨_, by assumption⟩
  · simp at h

/-- Claim C3: for a pass that starts with completed = false and gets past the
resource walk (every read of the catalog succeeds, so nothing is created),
the completed value computed by the pass is true exactly when the job's
succeeded count is 1 for method git, and exactly when the job's succeeded
count is 1 and the deployment's ready-replica count is 1 for method
download. -/
theorem C3_completion_verdict (env : Env) (inst : Export) (found : Job)
    (hget : env.getExport = .ok inst)
    (hc : inst.Status.Completed = false)
    (hwalk : firstMissing env inst = none)
    (hjob : env.get .job = .ok found) :
    (inst.Spec.Method = "git" →
        ((Reconcile env).inst.Status.Completed = true ↔ found.Succeeded = 1))
      ∧ (inst.Spec.Method = "download" →
        ((Reconcile env).inst.Status.Completed = true ↔
          (found.Succeeded = 1
            ∧ ∃ d : Deployment, env.get .deployment = .ok d ∧ d.ReadyReplicas = 1))) := by
  rw [Reconcile_of_fetched hget, walkSpec_finish hwalk, finish_completed]
  have hseen : jobSeen env = found := by simp [jobSeen, hjob]
  rw [hseen]
  constructor
  · intro hm
    simp [completedAfter, hm, isJobComplete]
  · intro hm
    by_cases hs : found.Succeeded = 1
    · have hdone : jobSucceeded env = true := by simp [jobSucceeded, hjob, isJobComplete, hs]
      have hmem : Kind.deployment ∈ catalog inst.Spec.Method (jobSucceeded env) := by
        simp [catalog, hm, hdone]
      obtain ⟨d, hd⟩ := present_ok (present_of_firstMissing_none hwalk hmem)
      have hdep : deploymentSeen env inst = d := by
        simp [deploymentSeen, hm, hdone, hd]
      rw [hdep]
      by_cases hr : d.ReadyReplicas = 1
      · simp [completedAfter, hm, isDeploymentReady, isJobComplete, hs, hr, hd]
      · simp [completedAfter, hm, isDeploymentReady, hs, hr, hd, hc]
    · have hdone : jobSucceeded env = false := by simp [jobSucceeded, hjob, isJobComplete, hs]
      have hdep : deploymentSeen env inst = Deployment.zero := by
        simp [deploymentSeen, hdone]
      rw [hdep]
      simp [completedAfter, hm, isDeploymentReady, Deployment.zero, hs, hc]

/-- Witness of C3: a download request with every kind present, a job with one
success and a deployment with one ready replica. -/
theorem C3_completion_verdict_witness :
    (envAll downloadExport 1 1).getExport = .ok downloadExport
      ∧ downloadExport.Status.Completed = false
      ∧ firstMissing (envAll downloadExport 1 1) downloadExport = none
      ∧ (envAll downloadExport 1 1).get .job = .ok ⟨1⟩
      ∧ (Reconcile (envAll downloadExport 1 1)).inst.Status.Completed = true
      ∧ ((downloadExport.Spec.Method = "git" →
          ((Reconcile (envAll downloadExport 1 1)).inst.Status.Completed = true
            ↔ (⟨1⟩ : Job).Succeeded = 1))
        ∧ (downloadExport.Spec.Method = "download" →
          ((Reconcile (envAll downloadExport 1 1)).inst.Status.Completed = true ↔
            ((⟨1⟩ : Job).Succeeded = 1
              ∧ ∃ d : Deployment, (envAll downloadExport 1 1).get .deployment = .ok d
                  ∧ d.ReadyReplicas = 1)))) :=
  ⟨rfl, rfl, by decide, rfl, by decide,
    C3_completion_verdict (envAll downloadExport 1 1) downloadExport ⟨1⟩ rfl rfl
      (by decide) rfl⟩

/-- Counterexample to C4: a git request whose status records completed =
true and whose job is gone after cleanup; the pass returns at the guard of
the job block holding completed = true and issues no status write, and no
other call. -/
theorem C4_counterexample :
    (envMissing gitExportCompleted 1 0 .job none).getExport = .ok gitExportCompleted
      ∧ absent (envMissing gitExportCompleted 1 0 .job none) .job = true
      ∧ (Reconcile (envMissing gitExportCompleted 1 0 .job none)).inst.Status.Completed = true
      ∧ (Reconcile (envMissing gitExportCompleted 1 0 .job none)).exit = .returned false none
      ∧ (Reconcile (envMissing gitExportCompleted 1 0 .job none)).calls = []
      ∧ ∀ s, Call.statusUpdate s
          ∉ (Reconcile (envMissing gitExportCompleted 1 0 .job none)).calls := by
  have hcalls : (Reconcile (envMissing gitExportCompleted 1 0 .job none)).calls = [] := by
    decide
  refine ⟨rfl, by decide, by decide, by decide, hcalls, ?_⟩
  intro s hs
  rw [hcalls] at hs
  cases hs

/-- Claim C4, amended: a pass that gets past the resource walk (every read of
the catalog succeeds) and ends with completed = true
first issues the status write, which carries completed = true.  In every
pass that issues a status write: if the write fails, the pass returns that
error and has issued nothing else, no delete in particular; if it succeeds,
the calls of the pass are the write followed by the deletes of the job (with
background propagation), the cluster role and the cluster role binding, and
the pass returns no requeue and no error, whatever the deletes answer.  No
delete is issued unless the status write succeeded. -/
theorem C4_cleanup_after_status_write (env : Env) :
    (∀ inst, env.getExport = .ok inst → firstMissing env inst = none →
        (Reconcile env).inst.Status.Completed = true →
        ∃ s rest, (Reconcile env).calls = Call.statusUpdate s :: rest ∧ s.Completed = true)
      ∧ (∀ s, Call.statusUpdate s ∈ (Reconcile env).calls →
          (∀ e, env.statusUpdate = some e →
            (Reconcile env).exit = .returned false (some e)
              ∧ (Reconcile env).calls = [.statusUpdate s])
          ∧ (env.statusUpdate = none →
            (Reconcile env).exit = .returned false none
              ∧ (Reconcile env).calls
                  = [.statusUpdate s, .delete .job true, .delete .clusterRole false,
                      .delete .clusterRoleBinding false]))
      ∧ (∀ k b, Call.delete k b ∈ (Reconcile env).calls →
          env.statusUpdate = none ∧ ∃ s, Call.statusUpdate s ∈ (Reconcile env).calls) := by
  refine ⟨?_, ?_⟩
  · intro inst hget hwalk hdone
    rw [Reconcile_of_fetched hget, walkSpec_finish hwalk] at hdone ⊢
    rw [finish_completed] at hdone
    cases hs : env.statusUpdate <;> simp [finish, setResult, hdone, hs]
  · apply Reconcile_cases env
      (fun o =>
        (∀ s, Call.statusUpdate s ∈ o.calls →
          (∀ e, env.statusUpdate = some e →
            o.exit = .returned false (some e) ∧ o.calls = [.statusUpdate s])
          ∧ (env.statusUpdate = none →
            o.exit = .returned false none
              ∧ o.calls = [.statusUpdate s, .delete .job true, .delete .clusterRole false,
                  .delete .clusterRoleBinding false]))
        ∧ (∀ k b, Call.delete k b ∈ o.calls →
          env.statusUpdate = none ∧ ∃ s, Call.statusUpdate s ∈ o.calls))
    · intro inst
      simp [noop]
    · intro inst err
      simp [readFailed]
    · intro inst k
      cases hk : env.create k <;> simp [createStep, hk]
    · intro inst cause
      simp
    · intro inst found foundRoute foundDeployment
      by_cases h : completedAfter inst found foundDeployment = true
      · cases hs : env.statusUpdate <;> simp [finish, setResult, h, hs]
      · simp [finish, setResult, noop, h]

/-- Witness of C4: a git request with every kind present and a job with one
success; the status write succeeds and the three deletes follow it. -/
theorem C4_cleanup_after_status_write_witness :
    (envAll gitExport 1 0).getExport = .ok gitExport
      ∧ firstMissing (envAll gitExport 1 0) gitExport = none
      ∧ (Reconcile (envAll gitExport 1 0)).inst.Status.Completed = true
      ∧ (envAll gitExport 1 0).statusUpdate = none
      ∧ (Reconcile (envAll gitExport 1 0)).exit = .returned false none
      ∧ (Reconcile (envAll gitExport 1 0)).calls
          = [.statusUpdate ⟨true, "https://apps.example/team-2021-06-01T10:00:00Z.zip", []⟩,
              .delete .job true, .delete .clusterRole false, .delete .clusterRoleBinding false]
      ∧ ∃ s rest, (Reconcile (envAll gitExport 1 0)).calls = Call.statusUpdate s :: rest
          ∧ s.Completed = true :=
  ⟨rfl, by decide, by decide, rfl, by decide, by decide,
    (C4_cleanup_after_status_write (envAll gitExport 1 0)).1 gitExport rfl (by decide)
      (by decide)⟩

/-! ## The condition upsert -/

theorem replaceCondition_filter (nc : Condition) :
    ∀ (cs r : List Condition), replaceCondition nc cs = some r →
      (cs.filter (fun c => c.Type_ = nc.Type_)).length ≤ 1 →
      ∃ x, r.filter (fun c => c.Type_ = nc.Type_) = [x]
        ∧ x.Status = nc.Status ∧ x.Reason = nc.Reason ∧ x.Message = nc.Message
  | [], r, h, _ => by simp [replaceCondition] at h
  | c :: cs, r, h, hlen => by
    unfold replaceCondition at h
    by_cases hc : c.Type_ = nc.Type_
    · simp only [hc, if_true, Option.some.injEq] at h
      subst h
      have hrest : cs.filter (fun c => c.Type_ = nc.Type_) = [] := by
        simp only [List.filter_cons, hc, decide_True, if_true, List.length_cons] at hlen
        exact List.length_eq_zero.1 (by omega)
      by_cases hs : c.Status = nc.Status <;> simp [hs, hrest, List.filter_cons]
    · simp only [hc, if_false, Option.map_eq_some'] at h
      obtain ⟨r1, hr1, rfl⟩ := h
      have ih := replaceCondition_filter nc cs r1 hr1
        (by simpa [List.filter_cons, hc] using hlen)
      simpa [List.filter_cons, hc] using ih

theorem replaceCondition_none (nc : Condition) :
    ∀ cs : List Condition, replaceCondition nc cs = none →
      cs.filter (fun c => c.Type_ = nc.Type_) = []
  | [], _ => rfl
  | c :: cs, h => by
    unfold replaceCondition at h
    by_cases hc : c.Type_ = nc.Type_
    · simp [hc] at h
    · simp only [hc, if_false, Option.map_eq_none'] at h
      simpa [List.filter_cons, hc] using replaceCondition_none nc cs h

/-- The upsert leaves exactly one Reconciled condition, the one written,
when the collection held at most one before. -/
theorem reconciled_SetCondition (conditions : List Condition) (now : Nat) (nc : Condition)
    (ht : nc.Type_ = ConditionReconciled)
    (hinv : (reconciledConditions conditions).length ≤ 1) :
    ∃ c, reconciledConditions (SetCondition conditions now nc) = [c]
      ∧ c.Status = nc.Status ∧ c.Reason = nc.Reason ∧ c.Message = nc.Message := by
  unfold reconciledConditions at hinv ⊢
  rw [← ht] at hinv ⊢
  rcases hr : replaceCondition { nc with LastTransitionTime := now } conditions with _ | r
  · have hnone := replaceCondition_none _ conditions hr
    simp only [SetCondition, hr]
    refine ⟨{ nc with LastTransitionTime := now }, ?_, rfl, rfl, rfl⟩
    have hperm := List.Perm.filter (fun c : Condition => decide (c.Type_ = nc.Type_))
      (List.perm_insertionSort (fun a b : Condition => a.Type_ ≤ b.Type_)
        (conditions ++ [{ nc with LastTransitionTime := now }]))
    have hfil : List.filter (fun c : Condition => decide (c.Type_ = nc.Type_))
        (conditions ++ [{ nc with LastTransitionTime := now }])
          = [{ nc with LastTransitionTime := now }] := by
      simp only [List.filter_append]
      rw [show List.filter (fun c : Condition => decide (c.Type_ = nc.Type_)) conditions = []
        from hnone]
      simp
    rw [hfil] at hperm
    exact List.perm_singleton.1 hperm
  · simp only [SetCondition, hr]
    exact replaceCondition_filter { nc with LastTransitionTime := now } conditions r hr hinv

/-! ## Failed creates and failed reads -/

/-- Claim C5: for a fetched, not yet completed request (method git or
download, at most one Reconciled condition on the fetched status, session
token generated), when kind `k` is the first kind of the catalog that is not
present, is absent, and its create fails with `e`: the pass returns `e`, the
create of `k` is the only call it issues (no other create, no delete, no
status write), and the status held by the pass has exactly one Reconciled
condition, with status False, reason Error and message the text of `e`. -/
theorem C5_failed_create (env : Env) (inst : Export) (k : Kind) (e : Err) (token : String)
    (hget : env.getExport = .ok inst)
    (hc : inst.Status.Completed = false)
    (hm : inst.Spec.Method = "git" ∨ inst.Spec.Method = "download")
    (hgen : env.generate = .ok token)
    (hfirst : firstMissing env inst = some k)
    (habs : absent env k = true)
    (hcreate : env.create k = some e)
    (hinv : (reconciledConditions inst.Status.Conditions).length ≤ 1) :
    (Reconcile env).exit = .returned false (some e)
      ∧ (Reconcile env).calls = [.create k]
      ∧ ∃ c, reconciledConditions (Reconcile env).inst.Status.Conditions = [c]
          ∧ c.Status = ConditionFalse ∧ c.Reason = ReconciledReasonError
          ∧ c.Message = e.text := by
  obtain ⟨err, hk⟩ := not_present_error (firstMissing_not_present hfirst)
  have hnf : err.notFound = true := by simpa [absent, hk] using habs
  rw [Reconcile_of_fetched hget, walkSpec_exit hfirst hk, exitAt_absent k hc hm hgen hnf]
  simp only [createStep, hcreate, updateErrCondition, true_and]
  exact reconciled_SetCondition inst.Status.Conditions env.now _ rfl hinv

/-- Witness of C5: the route of a git request is absent and its create fails,
on a request that already carries the Reconciled condition of an earlier
failing pass; the one Reconciled condition left carries the new message. -/
theorem C5_failed_create_witness :
    (envMissing gitExportFailedBefore 0 0 .route (some errBoom)).getExport
        = .ok gitExportFailedBefore
      ∧ firstMissing (envMissing gitExportFailedBefore 0 0 .route (some errBoom))
          gitExportFailedBefore = some .route
      ∧ absent (envMissing gitExportFailedBefore 0 0 .route (some errBoom)) .route = true
      ∧ (reconciledConditions gitExportFailedBefore.Status.Conditions).length ≤ 1
      ∧ (Reconcile (envMissing gitExportFailedBefore 0 0 .route (some errBoom))).inst.Status.Conditions
          = [⟨"Reconciled", "False", "Error", "boom", 3⟩]
      ∧ ((Reconcile (envMissing gitExportFailedBefore 0 0 .route (some errBoom))).exit
            = .returned false (some errBoom)
        ∧ (Reconcile (envMissing gitExportFailedBefore 0 0 .route (some errBoom))).calls
            = [.create .route]
        ∧ ∃ c, reconciledConditions
              (Reconcile (envMissing gitExportFailedBefore 0 0 .route
                (some errBoom))).inst.Status.Conditions = [c]
            ∧ c.Status = ConditionFalse ∧ c.Reason = ReconciledReasonError
            ∧ c.Message = errBoom.text) :=
  ⟨rfl, by decide, by decide, by decide, by decide,
    C5_failed_create (envMissing gitExportFailedBefore 0 0 .route (some errBoom))
      gitExportFailedBefore .route errBoom "0123456789abcdefghijklmnopqrstuvwxyzABCDEFG"
      rfl rfl (Or.inl rfl) rfl (by decide) (by decide) rfl (by decide)⟩

/-! ## Passes on a completed request -/

theorem exitAt_completed (env : Env) (inst : Export) (k : Kind) (err : Err) :
    (exitAt env inst k err).inst.Status.Completed = inst.Status.Completed := by
  have hcreate : ∀ j, (createStep env inst j).inst.Status.Completed = inst.Status.Completed := by
    intro j
    cases hj : env.create j <;> simp [createStep, hj, updateErrCondition]
  cases k <;> simp only [exitAt] <;> repeat' split
  all_goals first
    | rfl
    | exact hcreate _

/-- Counterexample to C6: a git request whose status records completed =
true, every kind present, and a job that reports no success; the pass ends
holding completed = false. -/
theorem C6_counterexample :
    (envAll gitExportCompleted 0 0).getExport = .ok gitExportCompleted
      ∧ gitExportCompleted.Status.Completed = true
      ∧ (Reconcile (envAll gitExportCompleted 0 0)).inst.Status.Completed = false :=
  ⟨rfl, rfl, by decide⟩

/-- Claim C6, amended: a pass that starts from completed = true ends holding
completed = false exactly when the method is not download, the pass gets past
the walk, and the fetched job's succeeded count is not 1; in every other
case, for method download in particular, it still holds completed = true. -/
theorem C6_completed_kept_unless (env : Env) (inst : Export)
    (hget : env.getExport = .ok inst)
    (hc : inst.Status.Completed = true) :
    (Reconcile env).inst.Status.Completed = false ↔
      (inst.Spec.Method ≠ "download" ∧ firstMissing env inst = none
        ∧ ∃ found : Job, env.get .job = .ok found ∧ found.Succeeded ≠ 1) := by
  rw [Reconcile_of_fetched hget]
  rcases hf : firstMissing env inst with _ | k
  · rw [walkSpec_finish hf, finish_completed]
    have hmem : Kind.job ∈ catalog inst.Spec.Method (jobSucceeded env) := by
      simp [catalog]
    obtain ⟨found, hjob⟩ := present_ok (present_of_firstMissing_none hf hmem)
    have hjob1 : env.get .job = .ok found := hjob
    have hseen : jobSeen env = found := by simp [jobSeen, hjob1]
    rw [hseen]
    by_cases hm : inst.Spec.Method = "download"
    · have hkeep : completedAfter inst found (deploymentSeen env inst) = true := by
        by_cases hd : jobSucceeded env = true
        · have hdone : isJobComplete found = true := by
            simpa [jobSucceeded, hjob1] using hd
          simp [completedAfter, hm, hdone, hc]
        · simp [completedAfter, deploymentSeen, hm, hd, isDeploymentReady, Deployment.zero,
            hc]
      simp [hkeep, hm]
    · constructor
      · intro h
        refine ⟨hm, rfl, found, hjob1, ?_⟩
        intro hs
        simp [completedAfter, hm, isJobComplete, hs] at h
      · rintro ⟨_, _, found1, hj1, hs⟩
        have : found1 = found := by
          rw [hjob1] at hj1
          exact (Except.ok.inj hj1).symm
        subst this
        simp [completedAfter, hm, isJobComplete, hs]
  · obtain ⟨err, hk⟩ := not_present_error (firstMissing_not_present hf)
    rw [walkSpec_exit hf hk, exitAt_completed, hc]
    simp

/-- Witness of C6 amended: the completed git request of the counterexample. -/
theorem C6_completed_kept_unless_witness :
    (envAll gitExportCompleted 0 0).getExport = .ok gitExportCompleted
      ∧ gitExportCompleted.Status.Completed = true
      ∧ ((Reconcile (envAll gitExportCompleted 0 0)).inst.Status.Completed = false ↔
          (gitExportCompleted.Spec.Method ≠ "download"
            ∧ firstMissing (envAll gitExportCompleted 0 0) gitExportCompleted = none
            ∧ ∃ found : Job, (envAll gitExportCompleted 0 0).get .job = .ok found
                ∧ found.Succeeded ≠ 1)) :=
  ⟨rfl, rfl, C6_completed_kept_unless (envAll gitExportCompleted 0 0) gitExportCompleted rfl rfl⟩

/-! ## Status writes -/

theorem statusUpdate_completed (env : Env) :
    ∀ s, Call.statusUpdate s ∈ (Reconcile env).calls → s.Completed = true := by
  apply Reconcile_cases env (fun o => ∀ s, Call.statusUpdate s ∈ o.calls → s.Completed = true)
  · intro inst
    simp [noop]
  · intro inst err
    simp [readFailed]
  · intro inst k
    cases hk : env.create k <;> simp [createStep, hk]
  · intro inst cause
    simp
  · intro inst found foundRoute foundDeployment
    by_cases h : completedAfter inst found foundDeployment = true
    · cases hs : env.statusUpdate <;> simp [finish, setResult, h, hs]
    · simp [finish, setResult, noop, h]

theorem storedStatus_completed (env : Env) :
    ∀ (calls : List Call) (stored : ExportStatus),
      (∀ s, Call.statusUpdate s ∈ calls → s.Completed = true) →
      stored.Completed = true → (storedStatus env stored calls).Completed = true
  | [], _, _, h => h
  | .create _ :: cs, stored, hw, h => by
    simp only [storedStatus]
    exact storedStatus_completed env cs stored
      (fun s hs => hw s (List.mem_cons_of_mem _ hs)) h
  | .delete _ _ :: cs, stored, hw, h => by
    simp only [storedStatus]
    exact storedStatus_completed env cs stored
      (fun s hs => hw s (List.mem_cons_of_mem _ hs)) h
  | .statusUpdate s :: cs, stored, hw, h => by
    simp only [storedStatus]
    apply storedStatus_completed env cs _ (fun t ht => hw t (List.mem_cons_of_mem _ ht))
    split
    · exact hw s (List.mem_cons_self _ _)
    · exact h

/-- Claim C7: every status write issued by a pass carries completed = true,
and so, across any sequence of passes, a stored status with completed = true
keeps completed = true. -/
theorem C7_stored_completed_monotone (stored : ExportStatus) (envs : List Env) :
    (∀ env ∈ envs, ∀ s, Call.statusUpdate s ∈ (Reconcile env).calls → s.Completed = true)
      ∧ (stored.Completed = true → (storedAfterPasses stored envs).Completed = true) := by
  refine ⟨fun env _ => statusUpdate_completed env, ?_⟩
  induction envs generalizing stored with
  | nil => exact id
  | cons env envs ih =>
    intro h
    simp only [storedAfterPasses]
    exact ih _ (storedStatus_completed env _ stored (statusUpdate_completed env) h)

/-- Witness of C7: a completed git request whose job reports no success; the
pass holds completed = false in memory, and the stored status keeps
completed = true over two such passes. -/
theorem C7_stored_completed_monotone_witness :
    gitExportCompleted.Status.Completed = true
      ∧ (Reconcile (envAll gitExportCompleted 0 0)).inst.Status.Completed = false
      ∧ (storedAfterPasses gitExportCompleted.Status
          [envAll gitExportCompleted 0 0, envAll gitExportCompleted 0 0]).Completed = true :=
  ⟨rfl, by decide,
    (C7_stored_completed_monotone gitExportCompleted.Status
      [envAll gitExportCompleted 0 0, envAll gitExportCompleted 0 0]).2 rfl⟩

/-- Claim C8, the code at the failing input: a download request whose status
records completed = true, a fetched job with one success, every kind present
but the serving deployment, which is absent; the pass issues a create for the
deployment and returns requeue = true. -/
theorem C8_deployment_created_when_completed :
    (envMissing downloadExportCompleted 1 0 .deployment none).getExport
        = .ok downloadExportCompleted
      ∧ downloadExportCompleted.Status.Completed = true
      ∧ absent (envMissing downloadExportCompleted 1 0 .deployment none) .deployment = true
      ∧ (Reconcile (envMissing downloadExportCompleted 1 0 .deployment none)).calls
          = [.create .deployment]
      ∧ (Reconcile (envMissing downloadExportCompleted 1 0 .deployment none)).exit
          = .returned true none :=
  ⟨rfl, rfl, by decide, by decide, by decide⟩

/-! ## Failed reads -/

theorem replaceCondition_mem (nc : Condition) :
    ∀ (cs r : List Condition), replaceCondition nc cs = some r →
      ∃ c ∈ r, c.Type_ = nc.Type_ ∧ c.Status = nc.Status ∧ c.Reason = nc.Reason
        ∧ c.Message = nc.Message
  | [], r, h => by simp [replaceCondition] at h
  | c :: cs, r, h => by
    unfold replaceCondition at h
    by_cases hc : c.Type_ = nc.Type_
    · simp only [hc, if_true, Option.some.injEq] at h
      subst h
      by_cases hs : c.Status = nc.Status <;> simp [hs]
    · simp only [hc, if_false, Option.map_eq_some'] at h
      obtain ⟨r1, hr1, rfl⟩ := h
      obtain ⟨x, hx, hprops⟩ := replaceCondition_mem nc cs r1 hr1
      exact ⟨x, List.mem_cons_of_mem _ hx, hprops⟩

/-- The upsert always leaves a condition with the type, status, reason and
message written. -/
theorem mem_SetCondition (conditions : List Condition) (now : Nat) (nc : Condition) :
    ∃ c ∈ SetCondition conditions now nc,
      c.Type_ = nc.Type_ ∧ c.Status = nc.Status ∧ c.Reason = nc.Reason
        ∧ c.Message = nc.Message := by
  rcases hr : replaceCondition { nc with LastTransitionTime := now } conditions with _ | r
  · simp only [SetCondition, hr]
    refine ⟨{ nc with LastTransitionTime := now }, ?_, rfl, rfl, rfl, rfl⟩
    rw [(List.perm_insertionSort (fun a b : Condition => a.Type_ ≤ b.Type_) _).mem_iff]
    simp
  · simp only [SetCondition, hr]
    exact replaceCondition_mem { nc with LastTransitionTime := now } conditions r hr

theorem exitAt_failed {env : Env} {inst : Export} (k : Kind) {err : Err}
    (hc : inst.Status.Completed = false) (hnf : err.notFound = false) :
    exitAt env inst k err = readFailed env inst err := by
  cases k <;> simp [exitAt, hc, hnf]

theorem exitAt_skipped {env : Env} {inst : Export} {k : Kind} (err : Err)
    (hc : inst.Status.Completed = true) (hk : k ≠ .deployment) :
    exitAt env inst k err = noop inst := by
  cases k <;> simp [exitAt, hc] at hk ⊢

/-- Counterexample to C9: on a git request whose status records completed =
true, the read of the job fails with an error other than not-found; the pass
returns no error and records no condition. -/
theorem C9_counterexample :
    (envReadError gitExportCompleted 1 0 .job errBoom).getExport = .ok gitExportCompleted
      ∧ (envReadError gitExportCompleted 1 0 .job errBoom).get .job = .error errBoom
      ∧ errBoom.notFound = false
      ∧ (Reconcile (envReadError gitExportCompleted 1 0 .job errBoom)).exit
          = .returned false none
      ∧ (Reconcile (envReadError gitExportCompleted 1 0 .job errBoom)).inst.Status.Conditions
          = [] :=
  ⟨rfl, rfl, rfl, by decide, by decide⟩

/-- Claim C9, amended: when the read of kind `k`, the first kind of the
catalog that is not present, fails with an error other than not-found: on a
request that is not completed the pass issues no call, returns that error and
records a Reconciled condition with status False, reason Error and the error
text; on a completed request and a kind other than the serving deployment the
pass returns no requeue and no error and leaves the request as fetched. -/
theorem C9_read_failure (env : Env) (inst : Export) (k : Kind) (err : Err)
    (hget : env.getExport = .ok inst)
    (hfirst : firstMissing env inst = some k)
    (hk : env.get k = .error err)
    (hnf : err.notFound = false) :
    (inst.Status.Completed = false →
        (Reconcile env).exit = .returned false (some err)
          ∧ (Reconcile env).calls = []
          ∧ ∃ c ∈ (Reconcile env).inst.Status.Conditions,
              c.Type_ = ConditionReconciled ∧ c.Status = ConditionFalse
                ∧ c.Reason = ReconciledReasonError ∧ c.Message = err.text)
      ∧ (inst.Status.Completed = true → k ≠ .deployment →
          Reconcile env = noop inst) := by
  rw [Reconcile_of_fetched hget, walkSpec_exit hfirst hk]
  constructor
  · intro hc
    rw [exitAt_failed k hc hnf]
    refine ⟨rfl, rfl, ?_⟩
    simp only [readFailed, updateErrCondition]
    exact mem_SetCondition inst.Status.Conditions env.now _
  · intro hc hdep
    exact exitAt_skipped err hc hdep

/-- Witness of C9 amended: the read of the route of a git request that is not
completed fails with an error other than not-found. -/
theorem C9_read_failure_witness :
    (envReadError gitExport 0 0 .route errBoom).getExport = .ok gitExport
      ∧ firstMissing (envReadError gitExport 0 0 .route errBoom) gitExport = some .route
      ∧ (envReadError gitExport 0 0 .route errBoom).get .route = .error errBoom
      ∧ errBoom.notFound = false
      ∧ gitExport.Status.Completed = false
      ∧ (Reconcile (envReadError gitExport 0 0 .route errBoom)).exit
          = .returned false (some errBoom)
      ∧ (Reconcile (envReadError gitExport 0 0 .route errBoom)).calls = []
      ∧ ∃ c ∈ (Reconcile (envReadError gitExport 0 0 .route errBoom)).inst.Status.Conditions,
          c.Type_ = ConditionReconciled ∧ c.Status = ConditionFalse
            ∧ c.Reason = ReconciledReasonError ∧ c.Message = errBoom.text :=
  ⟨rfl, by decide, rfl, rfl, rfl,
    (C9_read_failure (envReadError gitExport 0 0 .route errBoom) gitExport .route errBoom
      rfl (by decide) rfl rfl).1 rfl⟩

/-- Claim C10, the code at the failing input: the job of a git request is
absent and its create fails; the pass returns the error and holds the
Reconciled condition in memory, but issues no status write, so the status
held by the store is the one it held before the pass, whatever it was, and a
stored status without conditions still has none. -/
theorem C10_error_condition_not_stored :
    (Reconcile (envMissing gitExport 0 0 .job (some errBoom))).exit
        = .returned false (some errBoom)
      ∧ (Reconcile (envMissing gitExport 0 0 .job (some errBoom))).inst.Status.Conditions
          = [⟨"Reconciled", "False", "Error", "boom", 7⟩]
      ∧ (Reconcile (envMissing gitExport 0 0 .job (some errBoom))).calls = [.create .job]
      ∧ (∀ stored : ExportStatus,
          storedStatus (envMissing gitExport 0 0 .job (some errBoom)) stored
            (Reconcile (envMissing gitExport 0 0 .job (some errBoom))).calls = stored)
      ∧ reconciledConditions
          (storedStatus (envMissing gitExport 0 0 .job (some errBoom)) gitExport.Status
            (Reconcile (envMissing gitExport 0 0 .job (some errBoom))).calls).Conditions
          = [] := by
  have hcalls : (Reconcile (envMissing gitExport 0 0 .job (some errBoom))).calls
      = [.create .job] := by decide
  refine ⟨by decide, by decide, hcalls, ?_, by decide⟩
  intro stored
  rw [hcalls]
  rfl

/-! ## The artifact address -/

theorem finish_route (env : Env) (inst : Export) (found : Job) (foundRoute : Route)
    (foundDeployment : Deployment) :
    (finish env inst found foundRoute foundDeployment).inst.Status.Route
      = routeAddress inst foundRoute := by
  by_cases h : completedAfter inst found foundDeployment = true
  · cases hs : env.statusUpdate <;>
      simp [finish, setResult, h, hs, updateErrCondition]
  · simp [finish, setResult, noop, h]

/-- Claim C11: a pass that gets past the resource walk holds, when it ends,
status.route = "https://" ++ host of the fetched route ++ "/" ++ namespace
++ "-" ++ creation timestamp in RFC3339 ++ ".zip", whatever the method. -/
theorem C11_route_address (env : Env) (inst : Export) (foundRoute : Route)
    (hget : env.getExport = .ok inst)
    (hwalk : firstMissing env inst = none)
    (hroute : env.get .route = .ok foundRoute) :
    (Reconcile env).inst.Status.Route
      = "https://" ++ foundRoute.Host ++ "/" ++ inst.Namespace ++ "-"
          ++ inst.CreationTimestamp.rfc3339 ++ ".zip" := by
  rw [Reconcile_of_fetched hget, walkSpec_finish hwalk, finish_route]
  have hseen : routeSeen env = foundRoute := by simp [routeSeen, hroute]
  rw [hseen]
  rfl

/-- Witness of C11: a download request with every kind present; the address
is the one a git request gets from the same route. -/
theorem C11_route_address_witness :
    (envAll downloadExport 1 1).getExport = .ok downloadExport
      ∧ firstMissing (envAll downloadExport 1 1) downloadExport = none
      ∧ (envAll downloadExport 1 1).get .route = .ok ⟨"apps.example"⟩
      ∧ (Reconcile (envAll gitExport 1 0)).inst.Status.Route
          = "https://apps.example/team-2021-06-01T10:00:00Z.zip"
      ∧ (Reconcile (envAll downloadExport 1 1)).inst.Status.Route
          = "https://" ++ (⟨"apps.example"⟩ : Route).Host ++ "/" ++ downloadExport.Namespace
              ++ "-" ++ downloadExport.CreationTimestamp.rfc3339 ++ ".zip" :=
  ⟨rfl, by decide, rfl, by decide,
    C11_route_address (envAll downloadExport 1 1) downloadExport ⟨"apps.example"⟩ rfl
      (by decide) rfl⟩

/-! ## The generated objects -/

/-- Claim C12, the code at the failing input: for the export request named
"demo" the generated route targets kind Service and the port named
"oauth-proxy", which is the name of the generated service's port 8888, but
the target name is the constant "primer-export-primer" while the generated
service is named "primer-export-demo". -/
theorem C12_route_target_is_constant :
    (routeGenerate gitExport).Spec.To.Kind = "Service"
      ∧ (routeGenerate gitExport).Spec.TargetPort = .str "oauth-proxy"
      ∧ (⟨8888, "oauth-proxy"⟩ : ServicePort) ∈ (svcGenerate gitExport).Spec.Ports
      ∧ (routeGenerate gitExport).Spec.To.Name = "primer-export-primer"
      ∧ (svcGenerate gitExport).ObjectMeta.Name = "primer-export-demo"
      ∧ (routeGenerate gitExport).Spec.To.Name ≠ (svcGenerate gitExport).ObjectMeta.Name :=
  ⟨rfl, rfl, by decide, rfl, by decide, by decide⟩

/-- Claim C13, the code at the failing input: for the download request named
"demo" the pod selector of the generated network policy requires the label
app.kubernetes.io/part-of = "primer-export-demo", the pod template of the
generated deployment carries app.kubernetes.io/part-of = "primer-export", and
the selector does not select the pods, while the deployment's own selector
does. -/
theorem C13_network_policy_selects_no_pod :
    ("app.kubernetes.io/part-of", "primer-export-demo")
        ∈ (netPolGenerate downloadExport).Spec.PodSelector.MatchLabels
      ∧ (deploymentGenerate sampleReconciler downloadExport).Spec.Template.Labels.lookup
          "app.kubernetes.io/part-of" = some "primer-export"
      ∧ selectorMatches (netPolGenerate downloadExport).Spec.PodSelector
          (deploymentGenerate sampleReconciler downloadExport).Spec.Template.Labels = false
      ∧ selectorMatches (deploymentGenerate sampleReconciler downloadExport).Spec.Selector
          (deploymentGenerate sampleReconciler downloadExport).Spec.Template.Labels = true :=
  ⟨by decide, by decide, by decide, by decide⟩

/-! ## A missing export request -/

/-- Claim C17: when fetching the export request reports not-found, the pass
returns no requeue and no error and issues no call at all: no create, no
delete, no status write. -/
theorem C17_missing_request_is_noop (env : Env) (err : Err)
    (hget : env.getExport = .error err)
    (hnf : err.notFound = true) :
    (Reconcile env).exit = .returned false none ∧ (Reconcile env).calls = [] := by
  simp [Reconcile, hget, hnf, noop, Export.zero]

/-- Witness of C17: the fetch of the export request reports not-found. -/
theorem C17_missing_request_is_noop_witness :
    ({ envAll gitExport 0 0 with getExport := .error errNotFound } : Env).getExport
        = .error errNotFound
      ∧ errNotFound.notFound = true
      ∧ (Reconcile { envAll gitExport 0 0 with getExport := .error errNotFound }).exit
          = .returned false none
      ∧ (Reconcile { envAll gitExport 0 0 with getExport := .error errNotFound }).calls = [] :=
  ⟨rfl, rfl,
    C17_missing_request_is_noop { envAll gitExport 0 0 with getExport := .error errNotFound }
      errNotFound rfl rfl⟩

/-! ## Failure of the session token -/

/-- Counterexample to C15: the secret of a git request is absent and
`password.Generate` fails; the pass does not return, it ends the process in
`log.Fatal`, with no error handed to the caller. -/
theorem C15_counterexample :
    (envTokenFailure gitExport errRandom).generate = .error errRandom
      ∧ absent (envTokenFailure gitExport errRandom) .secret = true
      ∧ (Reconcile (envTokenFailure gitExport errRandom)).exit = .fatal errRandom
      ∧ ∀ requeue err,
          (Reconcile (envTokenFailure gitExport errRandom)).exit ≠ .returned requeue err := by
  have hexit : (Reconcile (envTokenFailure gitExport errRandom)).exit = .fatal errRandom := by
    decide
  refine ⟨rfl, by decide, hexit, ?_⟩
  intro requeue err h
  rw [hexit] at h
  cases h

/-- Claim C15, amended: when the pass reaches the secret step of a request
that is not completed, the secret is absent and generating the session token
fails with `cause`, the pass ends in `log.Fatal(cause)`: the process exits,
nothing is returned to the caller, and no create, delete or status write has
been issued. -/
theorem C15_token_failure_is_fatal (env : Env) (inst : Export) (cause : Err)
    (hget : env.getExport = .ok inst)
    (hc : inst.Status.Completed = false)
    (hfirst : firstMissing env inst = some .secret)
    (habs : absent env .secret = true)
    (hgen : env.generate = .error cause) :
    Reconcile env = ⟨.fatal cause, inst, []⟩ := by
  obtain ⟨err, hk⟩ := not_present_error (firstMissing_not_present hfirst)
  have hnf : err.notFound = true := by simpa [absent, hk] using habs
  rw [Reconcile_of_fetched hget, walkSpec_exit hfirst hk]
  simp [exitAt, secretGenerate, hc, hnf, hgen]

/-- Witness of C15 amended: the secret of a git request is absent and the
token generation fails. -/
theorem C15_token_failure_is_fatal_witness :
    (envTokenFailure gitExport errRandom).getExport = .ok gitExport
      ∧ gitExport.Status.Completed = false
      ∧ firstMissing (envTokenFailure gitExport errRandom) gitExport = some .secret
      ∧ absent (envTokenFailure gitExport errRandom) .secret = true
      ∧ (envTokenFailure gitExport errRandom).generate = .error errRandom
      ∧ Reconcile (envTokenFailure gitExport errRandom) = ⟨.fatal errRandom, gitExport, []⟩ :=
  ⟨rfl, rfl, by decide, by decide, rfl,
    C15_token_failure_is_fatal (envTokenFailure gitExport errRandom) gitExport errRandom
      rfl rfl (by decide) (by decide) rfl⟩

/-! ## Names of the cluster-scoped kinds -/

/-- A list is split in one way only at a separator that does not occur in
the part before it. -/
theorem split_at_separator {α : Type} (x : α) :
    ∀ (a c b d : List α), x ∉ a → x ∉ c → a ++ x :: b = c ++ x :: d → a = c ∧ b = d
  | [], [], b, d, _, _, h => by simpa using h
  | [], z :: c, b, d, _, hc, h => by
    simp only [List.nil_append, List.cons_append, List.cons.injEq] at h
    exact absurd h.1 (by
      intro hx
      exact hc (by simp [hx]))
  | y :: a, [], b, d, ha, _, h => by
    simp only [List.nil_append, List.cons_append, List.cons.injEq] at h
    exact absurd h.1 (by
      intro hx
      exact ha (by simp [hx]))
  | y :: a, z :: c, b, d, ha, hc, h => by
    simp only [List.cons_append, List.cons.injEq] at h
    have ih := split_at_separator x a c b d
      (fun hx => ha (List.mem_cons_of_mem _ hx))
      (fun hx => hc (List.mem_cons_of_mem _ hx)) h.2
    exact ⟨by rw [h.1, ih.1], ih.2⟩

/-- The same, for a separator that does not occur in the part after it. -/
theorem split_at_last_separator {α : Type} (x : α) (a c b d : List α)
    (hb : x ∉ b) (hd : x ∉ d) (h : a ++ x :: b = c ++ x :: d) : a = c ∧ b = d := by
  have hrev : b.reverse ++ x :: a.reverse = d.reverse ++ x :: c.reverse := by
    have := congrArg List.reverse h
    simpa using this
  have := split_at_separator x b.reverse d.reverse a.reverse c.reverse
    (by simpa using hb) (by simpa using hd) hrev
  exact ⟨List.reverse_injective this.2, List.reverse_injective this.1⟩

/-- The derived cluster-scoped name determines namespace and name when no
hyphen occurs in the namespaces, or none in the names. -/
theorem clusterName_injective (ns1 n1 ns2 n2 : String)
    (hno : (noHyphen ns1 ∧ noHyphen ns2) ∨ (noHyphen n1 ∧ noHyphen n2))
    (h : "primer-export-" ++ ns1 ++ "-" ++ n1 = "primer-export-" ++ ns2 ++ "-" ++ n2) :
    ns1 = ns2 ∧ n1 = n2 := by
  have hdata := congrArg String.data h
  simp only [String.data_append, List.append_assoc] at hdata
  have hrest := (List.append_right_inj _).1 hdata
  simp only [List.singleton_append] at hrest
  have hsplit : ns1.data = ns2.data ∧ n1.data = n2.data := by
    rcases hno with ⟨h1, h2⟩ | ⟨h1, h2⟩
    · exact split_at_separator '-' _ _ _ _ h1 h2 hrest
    · exact split_at_last_separator '-' _ _ _ _ h1 h2 hrest
  exact ⟨String.ext hsplit.1, String.ext hsplit.2⟩

/-- Counterexample to C14: the request named "c" in namespace "a-b" and the
request named "b-c" in namespace "a" differ in namespace and name and get the
same cluster role name and the same cluster role binding name. -/
theorem C14_counterexample :
    (("a-b", "c") : String × String) ≠ ("a", "b-c")
      ∧ (clusterRoleGenerate (exportNamed "a-b" "c")).ObjectMeta.Name = "primer-export-a-b-c"
      ∧ (clusterRoleGenerate (exportNamed "a-b" "c")).ObjectMeta.Name
          = (clusterRoleGenerate (exportNamed "a" "b-c")).ObjectMeta.Name
      ∧ (clusterRoleBindingGenerate (exportNamed "a-b" "c")).ObjectMeta.Name
          = (clusterRoleBindingGenerate (exportNamed "a" "b-c")).ObjectMeta.Name :=
  ⟨by decide, by decide, by decide, by decide⟩

/-- Claim C14, amended: for two export requests whose (namespace, name) pairs
differ, the cluster role names differ and the cluster role binding names
differ, provided no hyphen occurs in the two namespaces, or none in the two
names. -/
theorem C14_cluster_names_differ (m1 m2 : Export)
    (hno : (noHyphen m1.Namespace ∧ noHyphen m2.Namespace)
      ∨ (noHyphen m1.Name ∧ noHyphen m2.Name))
    (hne : (m1.Namespace, m1.Name) ≠ (m2.Namespace, m2.Name)) :
    (clusterRoleGenerate m1).ObjectMeta.Name ≠ (clusterRoleGenerate m2).ObjectMeta.Name
      ∧ (clusterRoleBindingGenerate m1).ObjectMeta.Name
          ≠ (clusterRoleBindingGenerate m2).ObjectMeta.Name := by
  have key : "primer-export-" ++ m1.Namespace ++ "-" ++ m1.Name
      ≠ "primer-export-" ++ m2.Namespace ++ "-" ++ m2.Name := by
    intro h
    have := clusterName_injective _ _ _ _ hno h
    exact hne (by rw [this.1, this.2])
  exact ⟨key, key⟩

/-- Witness of C14 amended: two requests with the same name in the namespaces
"team" and "dev". -/
theorem C14_cluster_names_differ_witness :
    ((noHyphen (exportNamed "team" "demo").Namespace ∧ noHyphen (exportNamed "dev" "demo").Namespace)
        ∨ (noHyphen (exportNamed "team" "demo").Name ∧ noHyphen (exportNamed "dev" "demo").Name))
      ∧ ((exportNamed "team" "demo").Namespace, (exportNamed "team" "demo").Name)
          ≠ ((exportNamed "dev" "demo").Namespace, (exportNamed "dev" "demo").Name)
      ∧ ((clusterRoleGenerate (exportNamed "team" "demo")).ObjectMeta.Name
            ≠ (clusterRoleGenerate (exportNamed "dev" "demo")).ObjectMeta.Name
        ∧ (clusterRoleBindingGenerate (exportNamed "team" "demo")).ObjectMeta.Name
            ≠ (clusterRoleBindingGenerate (exportNamed "dev" "demo")).ObjectMeta.Name) :=
  ⟨Or.inl ⟨by unfold noHyphen; decide, by unfold noHyphen; decide⟩, by decide,
    C14_cluster_names_differ (exportNamed "team" "demo") (exportNamed "dev" "demo")
      (Or.inl ⟨by unfold noHyphen; decide, by unfold noHyphen; decide⟩) (by decide)⟩

/-! ## Idempotence for method git -/

theorem present_env (c : Cluster) (now : Nat) (token : String) (k : Kind) :
    present (c.env now token) k = (c.objects k).isSome := by
  cases h : c.objects k <;> simp [present, Cluster.env, h]

theorem get_env_some {c : Cluster} (now : Nat) (token : String) {k : Kind} {obj : k.Obj}
    (h : c.objects k = some obj) : (c.env now token).get k = .ok obj := by
  simp [Cluster.env, h]

/-- Claim C16: for method git, in every store state in which the job, service
account, secret, route, cluster role, cluster role binding, volume claim and
service exist and the job reports exactly one success, with every store call
succeeding: a pass creates no object, and a further pass on the resulting
state creates no object and leaves the stored status unchanged. -/
theorem C16_git_idempotent (c : Cluster) (found : Job) (now1 now2 : Nat)
    (token1 token2 : String)
    (hm : c.request.Spec.Method = "git")
    (hall : ∀ k, k ∈ [Kind.job, .serviceAccount, .secret, .route, .clusterRole,
        .clusterRoleBinding, .persistentVolumeClaim, .service] →
      (c.objects k).isSome = true)
    (hjob : c.objects .job = some found)
    (hs : found.Succeeded = 1) :
    creates (Reconcile (c.env now1 token1)).calls = []
      ∧ creates (Reconcile ((c.pass now1 token1).env now2 token2)).calls = []
      ∧ ((c.pass now1 token1).pass now2 token2).request.Status
          = (c.pass now1 token1).request.Status := by
  have hget1 : (c.env now1 token1).getExport = .ok c.request := rfl
  have hjob1 : (c.env now1 token1).get .job = .ok found := get_env_some now1 token1 hjob
  have hwalk1 : firstMissing (c.env now1 token1) c.request = none := by
    apply List.find?_eq_none.2
    intro k hk
    have hk8 : k ∈ [Kind.job, .serviceAccount, .secret, .route, .clusterRole,
        .clusterRoleBinding, .persistentVolumeClaim, .service] := by
      simpa [catalog, hm] using hk
    simp [present_env, hall k hk8]
  have hseen : jobSeen (c.env now1 token1) = found := by simp [jobSeen, hjob1]
  have hdone : completedAfter c.request found (deploymentSeen (c.env now1 token1) c.request)
      = true := by
    simp [completedAfter, hm, isJobComplete, hs]
  have hcalls : (Reconcile (c.env now1 token1)).calls
      = [.statusUpdate (setResult c.request found (routeSeen (c.env now1 token1))
            (deploymentSeen (c.env now1 token1) c.request)).Status,
          .delete .job true, .delete .clusterRole false, .delete .clusterRoleBinding false] := by
    rw [Reconcile_of_fetched hget1, walkSpec_finish hwalk1, hseen]
    have hupd : (c.env now1 token1).statusUpdate = none := rfl
    simp [finish, setResult, hdone, hupd]
  have hpass : c.pass now1 token1
      = { request := { c.request with
            Status := (setResult c.request found (routeSeen (c.env now1 token1))
              (deploymentSeen (c.env now1 token1) c.request)).Status }
          objects := Function.update (Function.update (Function.update c.objects .job none)
            .clusterRole none) .clusterRoleBinding none } := by
    simp only [Cluster.pass, hcalls, Cluster.apply]
  have hcompleted : (c.pass now1 token1).request.Status.Completed = true := by
    rw [hpass]
    simpa [setResult] using hdone
  have hgone : (c.pass now1 token1).objects .job = none := by
    rw [hpass]
    simp [Function.update]
  have hget2 : ((c.pass now1 token1).env now2 token2).getExport
      = .ok (c.pass now1 token1).request := rfl
  have hjob2 : ((c.pass now1 token1).env now2 token2).get .job
      = .error ⟨"not found", true⟩ := by
    simp [Cluster.env, hgone]
  have hfirst2 : firstMissing ((c.pass now1 token1).env now2 token2)
      (c.pass now1 token1).request = some .job := by
    simp [firstMissing, catalog, present, hjob2]
  have hsecond : Reconcile ((c.pass now1 token1).env now2 token2)
      = noop (c.pass now1 token1).request := by
    rw [Reconcile_of_fetched hget2, walkSpec_exit hfirst2 hjob2]
    simp [exitAt, hcompleted]
  refine ⟨?_, ?_, ?_⟩
  · rw [hcalls]
    simp [creates]
  · rw [hsecond]
    simp [noop, creates]
  · have : (c.pass now1 token1).pass now2 token2 = c.pass now1 token1 := by
      conv_lhs => rw [Cluster.pass, hsecond]
      simp [noop, Cluster.apply]
    rw [this]

/-- Witness of C16: the store holding the git sample request and every kind,
with a job that reports one success. -/
theorem C16_git_idempotent_witness :
    clusterAll.request.Spec.Method = "git"
      ∧ clusterAll.objects .job = some ⟨1⟩
      ∧ (clusterAll.pass 1 "first").request.Status
          = ⟨true, "https://apps.example/team-2021-06-01T10:00:00Z.zip", []⟩
      ∧ (creates (Reconcile (clusterAll.env 1 "first")).calls = []
        ∧ creates (Reconcile ((clusterAll.pass 1 "first").env 2 "second")).calls = []
        ∧ ((clusterAll.pass 1 "first").pass 2 "second").request.Status
            = (clusterAll.pass 1 "first").request.Status) :=
  ⟨rfl, rfl, by decide,
    C16_git_idempotent clusterAll ⟨1⟩ 1 2 "first" "second" rfl
      (fun k hk => by
        simp only [List.mem_cons, List.mem_singleton, List.not_mem_nil, or_false] at hk
        rcases hk with h | h | h | h | h | h | h | h <;> subst h <;> rfl)
      rfl rfl⟩

end ExportController
